import Mathlib

/-!
Verification development for the ovs-manager topology reconciliation core.

The definitions below are a shallow embedding of the TypeScript source:

* the port-to-guest correlator of src/frontend/src/utils/vmMapping.ts
  (parseTapName, findVMForPort);
* the topology graph builder loadTopology of
  src/frontend/src/components/NetworkTopology.tsx (node/edge construction,
  mirror resolution, stopped-guest placement, port status colouring);
* the per-port rendering of BridgeVisualization.tsx;
* a state-transition model of the Refresh Controller's single-flight rule,
  which lives in the backend service that is not part of the frontend tree
  (modelled from the spec, see SingleFlight below).

JavaScript numbers appearing here are non-negative integers (Nat) because
every number in scope is produced by parseInt on a digit string; JS Map and
Set are modelled by association lists with last-write-wins lookup and by
lists of keys with guarded insertion.  React/JSX styling fields that do not
distinguish behaviour (stroke widths, dash arrays, marker metadata) are not
carried; the stroke colour string is kept because it is the datum that
distinguishes the live / stopped / mirror edge variants.
-/

namespace OvsManager

/-! ### Decimal digit strings

The builder interpolates numeric guest ids into node/edge id strings
(JS template literals such as vm-101), and the correlator parses decimal
digit runs with parseInt(s, 10).  decChars renders a Nat in decimal
(fuel-based so that the kernel can evaluate it), digitsToNat folds a digit
run back to its value. -/

def isDigitChar (c : Char) : Bool :=
  48 ≤ c.toNat && c.toNat ≤ 57

def digitsToNat (ds : List Char) : Nat :=
  ds.foldl (fun a c => 10 * a + (c.toNat - 48)) 0

def decCharsGo (fuel n : Nat) : List Char :=
  match fuel with
  | 0 => []
  | f + 1 =>
    if n < 10 then [Nat.digitChar n]
    else decCharsGo f (n / 10) ++ [Nat.digitChar (n % 10)]

/-- Decimal digit list of a Nat, most significant digit first. -/
def decChars (n : Nat) : List Char :=
  decCharsGo (n + 1) n

/-- Decimal string of a Nat, as produced by JS template interpolation. -/
def decStr (n : Nat) : String :=
  ⟨decChars n⟩

/-! ### Port-name parsing (src/frontend/src/utils/vmMapping.ts and the
inline regexes of NetworkTopology.tsx)

The source matches port names against the anchored regexes
tap(digits)i(digits) and veth(digits)i(digits) and applies
parseInt(-, 10) to the captured digit runs.  Since a digit run can never
contain the letter i, the greedy takeWhile split below recognises exactly
the same language as the backtracking regex engine. -/

def parseDigitsPair (rest : List Char) : Option (Nat × Nat) :=
  match rest.dropWhile isDigitChar with
  | 'i' :: ds2 =>
    if rest.takeWhile isDigitChar ≠ [] ∧ ds2 ≠ [] ∧ ds2.all isDigitChar then
      some (digitsToNat (rest.takeWhile isDigitChar), digitsToNat ds2)
    else none
  | _ => none

/-- Embeds parseTapName of vmMapping.ts: match against tap(d+)i(d+) and
return the captured vmid and interface number, or null. -/
def parseTapName (s : String) : Option (Nat × Nat) :=
  match s.data with
  | 't' :: 'a' :: 'p' :: rest => parseDigitsPair rest
  | _ => none

/-- Embeds the veth(d+)i(d+) container-port match used inline in
NetworkTopology.tsx. -/
def parseVethName (s : String) : Option (Nat × Nat) :=
  match s.data with
  | 'v' :: 'e' :: 't' :: 'h' :: rest => parseDigitsPair rest
  | _ => none

/-- The vmid capture of the NetworkTopology regex tap(d+)i d+ . -/
def tapVmid (s : String) : Option Nat :=
  (parseTapName s).map (fun t => t.1)

/-- The ctid capture of the NetworkTopology regex veth(d+)i d+ . -/
def vethCtid (s : String) : Option Nat :=
  (parseVethName s).map (fun t => t.1)

/-- The canonical VM port name tap(vmid)i(index) built from decimal
renderings, as in section 6 of the spec. -/
def tapNameStr (vmid idx : Nat) : String :=
  "tap" ++ decStr vmid ++ "i" ++ decStr idx

/-- A string belongs to the tap port-name pattern: tap, then a nonempty
digit run, then the letter i, then a nonempty digit run, then end of
string.  This is the language of the anchored regex tap(d+)i(d+). -/
def MatchesTapPattern (s : String) : Prop :=
  ∃ ds1 ds2 : List Char, ds1 ≠ [] ∧ ds2 ≠ [] ∧
    (∀ c ∈ ds1, isDigitChar c = true) ∧ (∀ c ∈ ds2, isDigitChar c = true) ∧
    s.data = 't' :: 'a' :: 'p' :: (ds1 ++ 'i' :: ds2)

/-! ### Data model (src/frontend/src/types/index.ts)

Fields that no claim-relevant consumer reads (MACs, MTUs, STP flags and the
like kept as plain strings / options) are carried where the TypeScript
interface declares them; an OVS interface record's open-ended extra keys
cannot be modelled, only its declared name field is kept. -/

structure PortIface where
  name : String
deriving DecidableEq

structure Port where
  uuid : String
  name : String
  bridge : Option String
  type : Option String
  tag : Option Nat
  trunks : Option (List Nat)
  vlan_mode : Option String
  interfaces : List PortIface
deriving DecidableEq

structure Mirror where
  uuid : String
  name : Option String
  bridge : String
  select_src_port : Option (List String)
  select_dst_port : Option (List String)
  output_port : Option String
  output_vlan : Option (List Nat)
  select_all : Option Bool
deriving DecidableEq

structure Bridge where
  uuid : String
  name : String
  ports : List Port
  mirrors : List Mirror
  cidr : Option String
  comment : Option String
  fail_mode : Option String
  datapath_type : Option String
deriving DecidableEq

structure VMInterface where
  netid : String
  tap : String
  mac : String
  bridge : Option String
deriving DecidableEq

structure VM where
  vmid : Nat
  name : String
  status : String
  interfaces : List VMInterface
deriving DecidableEq

structure Container where
  ctid : Nat
  name : String
  status : String
  interfaces : List VMInterface
deriving DecidableEq

/-! ### The correlator findVMForPort (vmMapping.ts) -/

/-- Embeds findVMForPort of vmMapping.ts: parse the port name, look the
vmid up among the cached VM records, then require that one of that VM's
interfaces carries exactly this port name as its tap field. -/
def findVMForPort (portName : String) (vms : List VM) : Option (VM × VMInterface) :=
  match parseTapName portName with
  | none => none
  | some tapInfo =>
    match vms.find? (fun v => v.vmid == tapInfo.1) with
    | none => none
    | some vm =>
      match vm.interfaces.find? (fun iface => iface.tap == portName) with
      | none => none
      | some iface => some (vm, iface)

/-- Demonstration inventory for the C7 witness. -/
def c7vm : VM :=
  { vmid := 101, name := "web01", status := "running",
    interfaces := [{ netid := "net0", tap := "tap101i0", mac := "aa:bb:cc:dd:ee:01",
                     bridge := some "ovsbr0" }] }

/-! ### Topology graph output model (loadTopology of NetworkTopology.tsx)

A node carries its ReactFlow id, node type string, layout position and the
data payload; an edge carries id, endpoints, handles, animation flag,
label, and the stroke colour that distinguishes the three edge variants:
live connection (green 4caf50 for VMs, orange ff9800 for containers),
stopped connection (red f44336), mirror connection (magenta dc004e). -/

structure PortCell where
  name : String
  uuid : String
  status : Option String
deriving DecidableEq

inductive NodeData where
  | bridgeData (label : String) (ports : List PortCell)
  | vmData (vmid : Nat) (name : String) (status : String)
      (interfaces : List VMInterface)
  | ctData (ctid : Nat) (name : String) (status : String)
      (interfaces : List VMInterface)
deriving DecidableEq

structure TNode where
  id : String
  nodeType : String
  x : Int
  y : Int
  data : NodeData
deriving DecidableEq

structure TEdge where
  id : String
  source : String
  sourceHandle : String
  target : String
  targetHandle : String
  animated : Bool
  label : Option String
  stroke : String
deriving DecidableEq

/-! ### Lookup maps (the vmMap / ctMap JS Maps built with forEach + set;
set overwrites, so the last record with a given id wins) -/

def vmGet (vms : List VM) (id : Nat) : Option VM :=
  vms.foldl (fun acc v => if v.vmid = id then some v else acc) none

def ctGet (cts : List Container) (id : Nat) : Option Container :=
  cts.foldl (fun acc c => if c.ctid = id then some c else acc) none

/-! ### allConfiguredPorts (NetworkTopology.tsx lines 109 to 145): per
bridge, the live ports followed by the configured-but-inactive ports of
stopped or unknown guests, de-duplicated by port name -/

def portsListOf (vms : List VM) (cts : List Container) (b : Bridge) : List PortCell :=
  let base := b.ports.map (fun p => { name := p.name, uuid := p.uuid, status := none })
  let withVMs := vms.foldl (fun acc vm =>
    if vm.status = "stopped" ∨ vm.status = "unknown" then
      vm.interfaces.foldl (fun acc2 iface =>
        if iface.bridge = some b.name then
          if acc2.any (fun p => p.name == iface.tap) then acc2
          else acc2 ++ [{ name := iface.tap, uuid := "stopped-" ++ iface.tap,
                          status := some "stopped" }]
        else acc2) acc
    else acc) base
  cts.foldl (fun acc ct =>
    if ct.status = "stopped" ∨ ct.status = "unknown" then
      ct.interfaces.foldl (fun acc2 iface =>
        if iface.bridge = some b.name then
          if acc2.any (fun p => p.name == iface.tap) then acc2
          else acc2 ++ [{ name := iface.tap, uuid := "stopped-" ++ iface.tap,
                          status := some "stopped" }]
        else acc2) acc
    else acc) withVMs

/-- allConfiguredPorts.get on the Map keyed by bridge name (last
same-named bridge wins, as with JS Map.set). -/
def allConfPortsGet (vms : List VM) (cts : List Container) (bridges : List Bridge)
    (name : String) : Option (List PortCell) :=
  bridges.foldl (fun acc b => if b.name = name then some (portsListOf vms cts b) else acc)
    none

/-! ### Phase A (lines 147 to 221): bridge nodes, then one guest node per
first-seen live port, tracked by the placedVMs / placedCTs sets -/

structure PlaceSt where
  nodes : List TNode
  placedVMs : List Nat
  placedCTs : List Nat
deriving DecidableEq

def vmNodeOf (vm : VM) (x y : Int) : TNode :=
  { id := "vm-" ++ decStr vm.vmid, nodeType := "vmNode", x := x, y := y,
    data := .vmData vm.vmid vm.name vm.status vm.interfaces }

def ctNodeOf (ct : Container) (x y : Int) : TNode :=
  { id := "ct-" ++ decStr ct.ctid, nodeType := "containerNode", x := x, y := y,
    data := .ctData ct.ctid ct.name ct.status ct.interfaces }

def bridgeNodeOf (vms : List VM) (cts : List Container) (bridges : List Bridge)
    (bridgeX : Int) (b : Bridge) : TNode :=
  { id := "bridge-" ++ b.name, nodeType := "bridgeNode", x := bridgeX, y := 300,
    data := .bridgeData b.name
      ((allConfPortsGet vms cts bridges b.name).getD
        (b.ports.map (fun p => { name := p.name, uuid := p.uuid, status := none }))) }

/-- The VM branch of the per-port placement loop (the first if block of
lines 169 to 193). -/
def placePortVM (vms : List VM) (bridgeX : Int) (acc : PlaceSt × Int × Int)
    (port : Port) : PlaceSt × Int × Int :=
  match tapVmid port.name with
  | some vmid =>
    match vmGet vms vmid with
    | some vm =>
      if vmid ∈ acc.1.placedVMs then acc
      else ({ acc.1 with nodes := acc.1.nodes ++ [vmNodeOf vm (bridgeX - 250) acc.2.1],
                         placedVMs := vmid :: acc.1.placedVMs },
            acc.2.1 + 200, acc.2.2)
    | none => acc
  | none => acc

/-- The container branch of the per-port placement loop (the second if
block of lines 195 to 219). -/
def placePortCT (cts : List Container) (bridgeX : Int) (acc : PlaceSt × Int × Int)
    (port : Port) : PlaceSt × Int × Int :=
  match vethCtid port.name with
  | some ctid =>
    match ctGet cts ctid with
    | some ct =>
      if ctid ∈ acc.1.placedCTs then acc
      else ({ acc.1 with nodes := acc.1.nodes ++ [ctNodeOf ct (bridgeX + 250) acc.2.2],
                         placedCTs := ctid :: acc.1.placedCTs },
            acc.2.1, acc.2.2 + 200)
    | none => acc
  | none => acc

def placePort (vms : List VM) (cts : List Container) (bridgeX : Int)
    (acc : PlaceSt × Int × Int) (port : Port) : PlaceSt × Int × Int :=
  placePortCT cts bridgeX (placePortVM vms bridgeX acc port) port

def placeBridge (vms : List VM) (cts : List Container) (bridges : List Bridge)
    (st : PlaceSt) (ib : Nat × Bridge) : PlaceSt :=
  let bridgeX : Int := Int.ofNat ib.1 * 400 + 200
  let st1 : PlaceSt :=
    { st with nodes := st.nodes ++ [bridgeNodeOf vms cts bridges bridgeX ib.2] }
  (ib.2.ports.foldl (placePort vms cts bridgeX) (st1, 0, 0)).1

def phaseA (bridges : List Bridge) (vms : List VM) (cts : List Container) : PlaceSt :=
  bridges.enum.foldl (placeBridge vms cts bridges) { nodes := [], placedVMs := [], placedCTs := [] }

/-! ### Live connection edges (lines 224 to 279) -/

def liveVMEdge (b : Bridge) (portName : String) (vmid : Nat) : TEdge :=
  { id := "edge-" ++ portName, source := "vm-" ++ decStr vmid, sourceHandle := portName,
    target := "bridge-" ++ b.name, targetHandle := portName ++ "-in",
    animated := false, label := none, stroke := "#4caf50" }

def liveCTEdge (b : Bridge) (portName : String) (ctid : Nat) : TEdge :=
  { id := "edge-" ++ portName, source := "ct-" ++ decStr ctid, sourceHandle := portName,
    target := "bridge-" ++ b.name, targetHandle := portName ++ "-in",
    animated := false, label := none, stroke := "#ff9800" }

def liveEdgesOfPort (vms : List VM) (cts : List Container)
    (placedV placedC : List Nat) (b : Bridge) (port : Port) : List TEdge :=
  let vmPart : List TEdge :=
    match tapVmid port.name with
    | some vmid =>
      if (vmGet vms vmid).isSome ∧ vmid ∈ placedV then [liveVMEdge b port.name vmid]
      else []
    | none => []
  let ctPart : List TEdge :=
    match vethCtid port.name with
    | some ctid =>
      if (ctGet cts ctid).isSome ∧ ctid ∈ placedC then [liveCTEdge b port.name ctid]
      else []
    | none => []
  vmPart ++ ctPart

/-! ### Mirror resolution and mirror edges (lines 281 to 391) -/

/-- The JS falsy check on mirror.output_port (missing or empty string). -/
def outputPortOf (m : Mirror) : Option String :=
  match m.output_port with
  | some op => if op = "" then none else some op
  | none => none

/-- The monitoring device connected to the output port: tap regex first,
else the veth regex, each accepted only when the device was placed. -/
def monitoringDeviceIdOf (placedV placedC : List Nat) (outputPort : String) :
    Option String :=
  match tapVmid outputPort with
  | some vmid => if vmid ∈ placedV then some ("vm-" ++ decStr vmid) else none
  | none =>
    match vethCtid outputPort with
    | some ctid => if ctid ∈ placedC then some ("ct-" ++ decStr ctid) else none
    | none => none

structure SourcePort where
  deviceId : String
  portName : String
deriving DecidableEq

/-- One push onto the sourcePorts array: correlate the port name, keep it
only for a placed device that is not the monitoring device and not already
recorded for the same (deviceId, portName) pair. -/
def pushSourcePort (placedV placedC : List Nat) (monId : String)
    (acc : List SourcePort) (pname : String) : List SourcePort :=
  match tapVmid pname with
  | some vmid =>
    if vmid ∈ placedV ∧ ("vm-" ++ decStr vmid) ≠ monId ∧
        (acc.find? (fun sp => sp.deviceId == "vm-" ++ decStr vmid &&
          sp.portName == pname)).isNone then
      acc ++ [{ deviceId := "vm-" ++ decStr vmid, portName := pname }]
    else acc
  | none =>
    match vethCtid pname with
    | some ctid =>
      if ctid ∈ placedC ∧ ("ct-" ++ decStr ctid) ≠ monId ∧
          (acc.find? (fun sp => sp.deviceId == "ct-" ++ decStr ctid &&
            sp.portName == pname)).isNone then
        acc ++ [{ deviceId := "ct-" ++ decStr ctid, portName := pname }]
      else acc
    | none => acc

/-- The monitored port names: every port on the bridge in select-all mode,
else the union of the recorded source and destination selector lists. -/
def sourcePortNamesOf (b : Bridge) (m : Mirror) : List String :=
  if m.select_all.getD false then b.ports.map (fun p => p.name)
  else (m.select_src_port.getD []) ++ (m.select_dst_port.getD [])

def resolveMirrorSources (placedV placedC : List Nat) (b : Bridge) (m : Mirror)
    (monId : String) : List SourcePort :=
  (sourcePortNamesOf b m).foldl (pushSourcePort placedV placedC monId) []

/-- The mirror resolver: the (source device, source port) set feeding the
mirror's output device, empty whenever the output port is absent or does
not correlate to a placed device. -/
def resolveMirror (placedV placedC : List Nat) (b : Bridge) (m : Mirror) :
    List SourcePort :=
  match outputPortOf m with
  | none => []
  | some op =>
    match monitoringDeviceIdOf placedV placedC op with
    | none => []
    | some monId => resolveMirrorSources placedV placedC b m monId

def mirrorDisplayName (m : Mirror) : String :=
  match m.name with
  | some n => if n = "" then "Unnamed" else n
  | none => "Unnamed"

def mkMirrorEdge (m : Mirror) (op monId : String) (sp : SourcePort) : TEdge :=
  { id := "mirror-" ++ m.uuid ++ "-" ++ sp.deviceId, source := sp.deviceId,
    sourceHandle := sp.portName, target := monId, targetHandle := op,
    animated := true,
    label := some ((if m.select_all.getD false then "Mirror All: " else "Mirror: ") ++
      mirrorDisplayName m),
    stroke := "#dc004e" }

def mirrorEdgesOf (placedV placedC : List Nat) (b : Bridge) (m : Mirror) :
    List TEdge :=
  match outputPortOf m with
  | none => []
  | some op =>
    match monitoringDeviceIdOf placedV placedC op with
    | none => []
    | some monId =>
      if 0 < (resolveMirrorSources placedV placedC b m monId).length then
        (resolveMirrorSources placedV placedC b m monId).map (mkMirrorEdge m op monId)
      else []

def bridgeEdges (vms : List VM) (cts : List Container)
    (placedV placedC : List Nat) (b : Bridge) : List TEdge :=
  b.ports.flatMap (liveEdgesOfPort vms cts placedV placedC b) ++
    b.mirrors.flatMap (mirrorEdgesOf placedV placedC b)

/-! ### Stopped-guest placement (lines 394 to 525) -/

/-- bridgeMap.get: the x coordinate recorded for a bridge name (y is the
constant 250); last same-named bridge wins. -/
def bridgeXOf (bridges : List Bridge) (name : String) : Option Int :=
  bridges.enum.foldl
    (fun acc ib => if ib.2.name = name then some (Int.ofNat ib.1 * 400 + 200) else acc)
    none

/-- JS template interpolation of a possibly-undefined bridge field. -/
def optBridgeStr (o : Option String) : String :=
  match o with
  | some s => s
  | none => "undefined"

/-- The bridgeName or-empty-string lookup key of lines 410/472. -/
def firstIfaceBridgeKey (ifaces : List VMInterface) : String :=
  match ifaces with
  | [] => ""
  | iface :: _ =>
    match iface.bridge with
    | some s => if s = "" then "" else s
    | none => ""

structure StopSt where
  placed : List Nat
  nodes : List TNode
  edges : List TEdge
deriving DecidableEq

def stoppedVMEdge (vm : VM) (iface : VMInterface) : TEdge :=
  { id := "edge-stopped-" ++ iface.tap, source := "vm-" ++ decStr vm.vmid,
    sourceHandle := iface.tap, target := "bridge-" ++ optBridgeStr iface.bridge,
    targetHandle := iface.tap ++ "-in", animated := false,
    label := some ("Stopped (" ++ iface.netid ++ ")"), stroke := "#f44336" }

def stoppedCTEdge (ct : Container) (iface : VMInterface) : TEdge :=
  { id := "edge-stopped-" ++ iface.tap, source := "ct-" ++ decStr ct.ctid,
    sourceHandle := iface.tap, target := "bridge-" ++ optBridgeStr iface.bridge,
    targetHandle := iface.tap ++ "-in", animated := false,
    label := some ("Stopped (" ++ iface.netid ++ ")"), stroke := "#f44336" }

def vmNameOr (vm : VM) : String :=
  if vm.name = "" then "VM " ++ decStr vm.vmid else vm.name

def ctNameOr (ct : Container) : String :=
  if ct.name = "" then "CT " ++ decStr ct.ctid else ct.name

/-- The node pushed for a stopped VM (lines 418 to 428); k is the size of
the placed set after the current add. -/
def stoppedVMNode (vm : VM) (bx : Int) (k : Nat) : TNode :=
  { id := "vm-" ++ decStr vm.vmid, nodeType := "vmNode", x := bx - 250,
    y := 250 + Int.ofNat k * 50,
    data := .vmData vm.vmid (vmNameOr vm) vm.status vm.interfaces }

/-- The node pushed for a stopped container (lines 479 to 489). -/
def stoppedCTNode (ct : Container) (bx : Int) (k : Nat) : TNode :=
  { id := "ct-" ++ decStr ct.ctid, nodeType := "containerNode", x := bx - 250,
    y := 250 + Int.ofNat k * 50 + 200,
    data := .ctData ct.ctid (ctNameOr ct) ct.status ct.interfaces }

def stoppedVMStep (bridges : List Bridge) (st : StopSt) (vm : VM) : StopSt :=
  if vm.vmid ∈ st.placed ∨ vm.interfaces = [] then st
  else
    match bridgeXOf bridges (firstIfaceBridgeKey vm.interfaces) with
    | none => { st with placed := vm.vmid :: st.placed }
    | some bx =>
      { placed := vm.vmid :: st.placed,
        nodes := st.nodes ++ [stoppedVMNode vm bx (vm.vmid :: st.placed).length],
        edges := st.edges ++ vm.interfaces.map (stoppedVMEdge vm) }

def stoppedCTStep (bridges : List Bridge) (st : StopSt) (ct : Container) : StopSt :=
  if ct.ctid ∈ st.placed ∨ ct.interfaces = [] then st
  else
    match bridgeXOf bridges (firstIfaceBridgeKey ct.interfaces) with
    | none => { st with placed := ct.ctid :: st.placed }
    | some bx =>
      { placed := ct.ctid :: st.placed,
        nodes := st.nodes ++ [stoppedCTNode ct bx (ct.ctid :: st.placed).length],
        edges := st.edges ++ ct.interfaces.map (stoppedCTEdge ct) }

/-! ### Port status colouring (lines 527 to 579) -/

def statusSetPort (vms : List VM) (cts : List Container)
    (acc : List (String × String)) (pname : String) : List (String × String) :=
  match tapVmid pname with
  | some vmid =>
    match vmGet vms vmid with
    | some vm => (pname, if vm.status = "running" then "running" else "stopped") :: acc
    | none => acc
  | none =>
    match vethCtid pname with
    | some ctid =>
      match ctGet cts ctid with
      | some ct => (pname, if ct.status = "running" then "running" else "stopped") :: acc
      | none => acc
    | none => acc

/-- The portStatusMap entries: newest set first, so lookup by first match
models Map.set overwrite. -/
def portStatusEntries (bridges : List Bridge) (vms : List VM) (cts : List Container) :
    List (String × String) :=
  let s1 := bridges.foldl
    (fun acc b => b.ports.foldl (fun a p => statusSetPort vms cts a p.name) acc) []
  let s2 := vms.foldl
    (fun acc vm =>
      if vm.status = "stopped" then
        vm.interfaces.foldl (fun a iface => (iface.tap, "stopped") :: a) acc
      else acc) s1
  cts.foldl
    (fun acc ct =>
      if ct.status = "stopped" then
        ct.interfaces.foldl (fun a iface => (iface.tap, "stopped") :: a) acc
      else acc) s2

def statusLookup (entries : List (String × String)) (k : String) : Option String :=
  (entries.find? (fun e => e.1 == k)).map (fun e => e.2)

def recolorCell (entries : List (String × String)) (p : PortCell) : PortCell :=
  { p with status := some ((statusLookup entries p.name).getD "none") }

def applyPortStatus (entries : List (String × String)) (n : TNode) : TNode :=
  match n.data with
  | .bridgeData label ports =>
    { n with data := NodeData.bridgeData label (ports.map (recolorCell entries)) }
  | _ => n

/-! ### The complete builder -/

/-- Embeds the pure node/edge construction of loadTopology: bridge and
live-guest nodes, live edges, mirror edges, stopped-guest nodes and edges,
then the port status recolouring of bridge nodes.  It is a total function
of the three cached record lists. -/
def buildTopology (bridges : List Bridge) (vms : List VM) (cts : List Container) :
    List TNode × List TEdge :=
  let pa := phaseA bridges vms cts
  let edgesMain := bridges.flatMap (bridgeEdges vms cts pa.placedVMs pa.placedCTs)
  let sv := vms.foldl (stoppedVMStep bridges) { placed := pa.placedVMs, nodes := [], edges := [] }
  let sc := cts.foldl (stoppedCTStep bridges) { placed := pa.placedCTs, nodes := [], edges := [] }
  let nodes := pa.nodes ++ sv.nodes ++ sc.nodes
  let entries := portStatusEntries bridges vms cts
  (nodes.map (applyPortStatus entries), edgesMain ++ sv.edges ++ sc.edges)

/-! ### Counting guest nodes by id -/

def vmNodeCount (nodes : List TNode) (v : Nat) : Nat :=
  nodes.countP (fun n => n.id == "vm-" ++ decStr v)

def ctNodeCount (nodes : List TNode) (c : Nat) : Nat :=
  nodes.countP (fun n => n.id == "ct-" ++ decStr c)

/-! ### Claim C4: mirror resolver output invariants -/

def sourcePairs (l : List SourcePort) : List (String × String) :=
  l.map (fun sp => (sp.deviceId, sp.portName))

/-! ### Claim C5: dangling mirrors resolve to the empty set -/

/-- Whether a port name correlates to a placed device, the acceptance
test applied to every monitored port name. -/
def correlatesToPlaced (placedV placedC : List Nat) (pname : String) : Bool :=
  match tapVmid pname with
  | some vmid => decide (vmid ∈ placedV)
  | none =>
    match vethCtid pname with
    | some ctid => decide (ctid ∈ placedC)
    | none => false

/-! ### Claim C9: single-flight refresh (Refresh Controller)

Modelled from the spec: the Refresh Controller lives in the backend
service, which is not part of the frontend source tree; sections 4.1 and
8 specify that refresh(host, kind) keeps at most one fetch in flight per
(host, kind) pair, that a concurrent second caller joins the in-flight
operation instead of issuing a duplicate remote call, and that all joined
callers receive the same resulting CacheEntry.  The state below is the
coordination unit of one (host, kind) key: the number of fetch
invocations issued so far, the callers joined to the in-flight fetch (if
one is in flight), the results delivered to callers, and the cache
entry. -/

structure CacheEntry where
  value : List String
  lastUpdated : Nat
  lastError : Option String
deriving DecidableEq

structure FlightSt where
  fetchCount : Nat
  waiters : Option (List Nat)
  delivered : List (Nat × CacheEntry)
  entry : Option CacheEntry
deriving DecidableEq

/-- Modelled from the spec: one refresh call joins the in-flight fetch if
there is one, otherwise starts a new fetch. -/
def refreshCall (st : FlightSt) (caller : Nat) : FlightSt :=
  match st.waiters with
  | some ws => { st with waiters := some (caller :: ws) }
  | none => { st with waiters := some [caller], fetchCount := st.fetchCount + 1 }

def refreshAll (st : FlightSt) (callers : List Nat) : FlightSt :=
  callers.foldl refreshCall st

/-- Modelled from the spec: completion of the in-flight fetch delivers the
one result to every joined caller and atomically replaces the entry. -/
def completeFetch (st : FlightSt) (result : CacheEntry) : FlightSt :=
  match st.waiters with
  | some ws =>
    { fetchCount := st.fetchCount, waiters := none,
      delivered := st.delivered ++ ws.map (fun c => (c, result)),
      entry := some result }
  | none => st

/-- Initial state for the C9 witness: one fetch already in flight with
caller 0 waiting. -/
def c9start : FlightSt :=
  { fetchCount := 1, waiters := some [0], delivered := [], entry := none }

/-- The fetched entry delivered in the C9 witness. -/
def c9entry : CacheEntry :=
  { value := ["ovsbr0"], lastUpdated := 7, lastError := none }

/-! ### The phase A invariant: guest node multiplicity matches the placed
sets, every placed guest has its node, every placed guest is in the
inventory -/

def PlaceInv (vms : List VM) (cts : List Container) (st : PlaceSt) : Prop :=
  (∀ v, vmNodeCount st.nodes v = if v ∈ st.placedVMs then 1 else 0) ∧
  (∀ c, ctNodeCount st.nodes c = if c ∈ st.placedCTs then 1 else 0) ∧
  (∀ v ∈ st.placedVMs, ∃ n ∈ st.nodes, n.id = "vm-" ++ decStr v ∧
    n.nodeType = "vmNode") ∧
  (∀ c ∈ st.placedCTs, ∃ n ∈ st.nodes, n.id = "ct-" ++ decStr c ∧
    n.nodeType = "containerNode") ∧
  (∀ v ∈ st.placedVMs, (vmGet vms v).isSome) ∧
  (∀ c ∈ st.placedCTs, (ctGet cts c).isSome)

/-! ### Concrete record builders used by witnesses and counterexamples -/

def mkPort (u n : String) : Port :=
  { uuid := u, name := n, bridge := none, type := none, tag := none,
    trunks := none, vlan_mode := none, interfaces := [{ name := n }] }

def mkPortNI (u n : String) : Port :=
  { uuid := u, name := n, bridge := none, type := none, tag := none,
    trunks := none, vlan_mode := none, interfaces := [] }

def mkBridge (u n : String) (ports : List Port) (mirrors : List Mirror) : Bridge :=
  { uuid := u, name := n, ports := ports, mirrors := mirrors, cidr := none,
    comment := none, fail_mode := none, datapath_type := none }

def mkIface (nid tap br : String) : VMInterface :=
  { netid := nid, tap := tap, mac := "00:00:00:00:00:00", bridge := some br }

/-! ### Claim C3 -/

/-- Three bridges each carrying one live port of guest 5, except that only
the first port is live; the guest's other two configured bridges have no
port for it. -/
def c3xvm : VM :=
  { vmid := 5, name := "guest5", status := "running",
    interfaces := [mkIface "net0" "tap5i0" "br0", mkIface "net1" "tap5i1" "br1",
                   mkIface "net2" "tap5i2" "br2"] }

def c3xbridges : List Bridge :=
  [mkBridge "b0" "br0" [mkPort "p0" "tap5i0"] [],
   mkBridge "b1" "br1" [] [],
   mkBridge "b2" "br2" [] []]

/-- All-live variant for the amended C3: guest 7 on three bridges, all
three ports live. -/
def c3vm : VM :=
  { vmid := 7, name := "guest7", status := "running",
    interfaces := [mkIface "net0" "tap7i0" "br0", mkIface "net1" "tap7i1" "br1",
                   mkIface "net2" "tap7i2" "br2"] }

def c3bridges : List Bridge :=
  [mkBridge "b0" "br0" [mkPort "p0" "tap7i0"] [],
   mkBridge "b1" "br1" [mkPort "p1" "tap7i1"] [],
   mkBridge "b2" "br2" [mkPort "p2" "tap7i2"] []]

def c10mirror : Mirror :=
  { uuid := "mu", name := some "mir", bridge := "ovsbr0", select_src_port := none,
    select_dst_port := none, output_port := some "tap103i0", output_vlan := none,
    select_all := some true }

def c10bridges : List Bridge :=
  [mkBridge "b0" "ovsbr0"
    [mkPort "p1" "tap101i0", mkPort "p2" "tap102i0", mkPort "p3" "tap103i0"]
    [c10mirror]]

def c10vm (n : Nat) : VM :=
  { vmid := n, name := "vm" ++ decStr n, status := "running",
    interfaces := [mkIface "net0" ("tap" ++ decStr n ++ "i0") "ovsbr0"] }

/-- The first mirror edge produced in the C10 scenario: vm-101 feeding the
monitoring device vm-103. -/
def c10edge : TEdge :=
  mkMirrorEdge c10mirror "tap103i0" ("vm-" ++ decStr 103)
    { deviceId := "vm-" ++ decStr 101, portName := "tap101i0" }

/-! ### Claim C2 -/

def c2port : Port := mkPort "p1" "tap102i0"

def c2bridge : Bridge := mkBridge "b0" "ovsbr0" [c2port] []

def c2vm : VM := { vmid := 102, name := "vm102", status := "stopped", interfaces := [] }

/-! ### Claim C1 -/

def c1vm : VM :=
  { vmid := 101, name := "vm101", status := "running",
    interfaces := [mkIface "net0" "tap101i0" "ovsbr0", mkIface "net1" "tap101i1" "ovsbr1"] }

def c1bridges : List Bridge :=
  [mkBridge "b0" "ovsbr0" [mkPort "p1" "tap101i0"] [],
   mkBridge "b1" "ovsbr1" [] []]

def c1wvm101 : VM :=
  { vmid := 101, name := "vm101", status := "running",
    interfaces := [mkIface "net0" "tap101i0" "ovsbr0"] }

def c1wvm102 : VM :=
  { vmid := 102, name := "vm102", status := "stopped",
    interfaces := [mkIface "net0" "tap102i0" "ovsbr0"] }

def c1wbridges : List Bridge :=
  [mkBridge "b0" "ovsbr0" [mkPort "p1" "tap101i0"] []]

/-! ### Claim C8 -/

/-- The per-port rows rendered by BridgeVisualization (lines 142 to 177):
every port of the bridge is rendered, with its correlation result and
whether the interface-name line is shown. -/
def portRowsOf (vms : List VM) (b : Bridge) :
    List (String × Option (VM × VMInterface) × Bool) :=
  b.ports.map (fun port =>
    (port.name, findVMForPort port.name vms, decide (0 < port.interfaces.length)))

def c8port : Port := mkPortNI "p1" "tap101i0"

def c8bridge : Bridge := mkBridge "b0" "ovsbr0" [c8port] []

def c8vm : VM :=
  { vmid := 101, name := "vm101", status := "running",
    interfaces := [mkIface "net0" "tap101i0" "ovsbr0"] }

def portCellsOf (n : TNode) : List PortCell :=
  match n.data with
  | .bridgeData _ ports => ports
  | _ => []

/-! ## Theorems -/

theorem decCharsGo_succ (f n : Nat) :
    decCharsGo (f + 1) n =
      if n < 10 then [Nat.digitChar n]
      else decCharsGo f (n / 10) ++ [Nat.digitChar (n % 10)] := rfl

theorem decCharsGo_fuel {n : Nat} : ∀ {f g : Nat}, n < f → n < g →
    decCharsGo f n = decCharsGo g n := by
  induction n using Nat.strong_induction_on with
  | _ n ih =>
    intro f g hf hg
    obtain ⟨f, rfl⟩ : ∃ m, f = m + 1 := ⟨f - 1, by omega⟩
    obtain ⟨g, rfl⟩ : ∃ m, g = m + 1 := ⟨g - 1, by omega⟩
    rw [decCharsGo_succ, decCharsGo_succ]
    split
    · rfl
    · rename_i h10
      have hdiv : n / 10 < n := Nat.div_lt_self (by omega) (by omega)
      have h1 : decCharsGo f (n / 10) = decCharsGo g (n / 10) :=
        ih (n / 10) hdiv (by omega) (by omega)
      rw [h1]

theorem decChars_lt (n : Nat) (h : n < 10) : decChars n = [Nat.digitChar n] := by
  show decCharsGo (n + 1) n = _
  rw [decCharsGo_succ, if_pos h]

theorem decChars_ge (n : Nat) (h : ¬ n < 10) :
    decChars n = decChars (n / 10) ++ [Nat.digitChar (n % 10)] := by
  have hdiv : n / 10 < n := Nat.div_lt_self (by omega) (by omega)
  show decCharsGo (n + 1) n = _
  rw [decCharsGo_succ, if_neg h]
  rw [show decCharsGo n (n / 10) = decChars (n / 10) from
    decCharsGo_fuel (by omega) (by omega)]

theorem digitChar_spec {d : Nat} (h : d < 10) :
    isDigitChar (Nat.digitChar d) = true ∧ Nat.digitChar d ≠ 'i' ∧
      (Nat.digitChar d).toNat = 48 + d := by
  interval_cases d <;> exact ⟨by decide, by decide, by decide⟩

theorem decChars_digits (n : Nat) : ∀ c ∈ decChars n, isDigitChar c = true := by
  induction n using Nat.strong_induction_on with
  | _ n ih =>
    by_cases h : n < 10
    · rw [decChars_lt n h]
      intro c hc
      rw [List.mem_singleton] at hc
      subst hc
      exact (digitChar_spec h).1
    · rw [decChars_ge n h]
      intro c hc
      rcases List.mem_append.1 hc with hc | hc
      · exact ih (n / 10) (Nat.div_lt_self (by omega) (by omega)) c hc
      · rw [List.mem_singleton] at hc
        subst hc
        exact (digitChar_spec (Nat.mod_lt _ (by omega))).1

theorem decChars_ne_nil (n : Nat) : decChars n ≠ [] := by
  by_cases h : n < 10
  · rw [decChars_lt n h]; simp
  · rw [decChars_ge n h]; simp

theorem foldl_digits_decChars (n : Nat) : ∀ a : Nat,
    (decChars n).foldl (fun x c => 10 * x + (c.toNat - 48)) a =
      a * 10 ^ (decChars n).length + n := by
  induction n using Nat.strong_induction_on with
  | _ n ih =>
    intro a
    by_cases h : n < 10
    · rw [decChars_lt n h]
      simp only [List.foldl_cons, List.foldl_nil, (digitChar_spec h).2.2,
        List.length_singleton, pow_one]
      omega
    · have hdiv : n / 10 < n := Nat.div_lt_self (by omega) (by omega)
      rw [decChars_ge n h, List.foldl_append, ih (n / 10) hdiv a]
      simp only [List.foldl_cons, List.foldl_nil,
        (digitChar_spec (Nat.mod_lt n (by omega))).2.2, List.length_append,
        List.length_singleton, Nat.pow_succ, Nat.add_sub_cancel_left]
      have hdm : 10 * (n / 10) + n % 10 = n := Nat.div_add_mod n 10
      have hsplit : 10 * (a * 10 ^ (decChars (n / 10)).length + n / 10) + n % 10 =
          a * (10 ^ (decChars (n / 10)).length * 10) + (10 * (n / 10) + n % 10) := by
        ring
      rw [hsplit, hdm]

theorem digitsToNat_decChars (n : Nat) : digitsToNat (decChars n) = n := by
  have h := foldl_digits_decChars n 0
  simpa [digitsToNat] using h

theorem decChars_injective : Function.Injective decChars := by
  intro a b h
  have := digitsToNat_decChars a
  rw [h, digitsToNat_decChars] at this
  omega

theorem decStr_injective : Function.Injective decStr := by
  intro a b h
  exact decChars_injective (congrArg String.data h)

theorem takeWhile_digits_append (l₂ : List Char) (l₁ : List Char)
    (h₁ : ∀ x ∈ l₁, isDigitChar x = true) :
    (l₁ ++ 'i' :: l₂).takeWhile isDigitChar = l₁ ∧
      (l₁ ++ 'i' :: l₂).dropWhile isDigitChar = 'i' :: l₂ := by
  have hi : isDigitChar 'i' = false := by decide
  induction l₁ with
  | nil =>
    constructor
    · simp [List.takeWhile_cons, hi]
    · simp [List.dropWhile_cons, hi]
  | cons a l ih =>
    have ha : isDigitChar a = true := h₁ a (List.mem_cons_self a l)
    have ih2 := ih (fun x hx => h₁ x (List.mem_cons_of_mem a hx))
    constructor
    · simp [List.takeWhile_cons, ha, ih2.1]
    · simp [List.dropWhile_cons, ha, ih2.2]

theorem parseDigitsPair_round (v i : Nat) :
    parseDigitsPair (decChars v ++ 'i' :: decChars i) = some (v, i) := by
  have htw := takeWhile_digits_append (decChars i) (decChars v) (decChars_digits v)
  unfold parseDigitsPair
  rw [htw.2]
  simp only [htw.1]
  rw [if_pos]
  · rw [digitsToNat_decChars, digitsToNat_decChars]
  · refine ⟨decChars_ne_nil v, decChars_ne_nil i, ?_⟩
    rw [List.all_eq_true]
    exact decChars_digits i

theorem tapNameStr_data (v i : Nat) :
    (tapNameStr v i).data = 't' :: 'a' :: 'p' :: (decChars v ++ 'i' :: decChars i) := by
  show ("tap" ++ decStr v ++ "i" ++ decStr i).data = _
  have h : ∀ s t : String, (s ++ t).data = s.data ++ t.data := fun s t => rfl
  simp [h, decStr]

theorem parseDigitsPair_shape {rest : List Char} {v i : Nat}
    (h : parseDigitsPair rest = some (v, i)) :
    ∃ ds1 ds2 : List Char, ds1 ≠ [] ∧ ds2 ≠ [] ∧
      (∀ c ∈ ds1, isDigitChar c = true) ∧ (∀ c ∈ ds2, isDigitChar c = true) ∧
      rest = ds1 ++ 'i' :: ds2 := by
  unfold parseDigitsPair at h
  split at h
  · rename_i ds2 heq
    split at h
    · rename_i hcond
      refine ⟨rest.takeWhile isDigitChar, ds2, hcond.1, hcond.2.1, ?_, ?_, ?_⟩
      · intro c hc
        exact List.mem_takeWhile_imp hc
      · intro c hc
        exact (List.all_eq_true.1 hcond.2.2) c hc
      · rw [← heq]
        exact (List.takeWhile_append_dropWhile isDigitChar rest).symm
    · exact absurd h (by simp)
  · exact absurd h (by simp)

/-- Claim C6: the correlator round-trip.  Parsing the canonically formed
port name tap(vmid)i(index) returns exactly the pair (vmid, index), and
parseTapName returns null on every string outside the tap pattern. -/
theorem c6_parseTapName_round_trip :
    (∀ vmid idx : Nat, parseTapName (tapNameStr vmid idx) = some (vmid, idx)) ∧
    (∀ s : String, ¬ MatchesTapPattern s → parseTapName s = none) := by
  constructor
  · intro vmid idx
    unfold parseTapName
    rw [tapNameStr_data]
    exact parseDigitsPair_round vmid idx
  · intro s hs
    by_contra hne
    rcases hp : parseTapName s with _ | t
    · exact hne hp
    · apply hs
      unfold parseTapName at hp
      split at hp
      · rename_i rest heq
        obtain ⟨ds1, ds2, h1, h2, h3, h4, h5⟩ :=
          parseDigitsPair_shape (v := t.1) (i := t.2) (by simpa using hp)
        exact ⟨ds1, ds2, h1, h2, h3, h4, by rw [heq, h5]⟩
      · exact absurd hp (by simp)

/-- Witness for C6 at concrete inputs: tap101i0 parses to (101, 0), and
the non-matching name eth0 parses to null. -/
theorem c6_witness :
    parseTapName (tapNameStr 101 0) = some (101, 0) ∧ parseTapName "eth0" = none := by
  constructor
  · exact c6_parseTapName_round_trip.1 101 0
  · apply c6_parseTapName_round_trip.2
    intro hm
    obtain ⟨ds1, ds2, h1, h2, h3, h4, h5⟩ := hm
    have h6 : ['e', 't', 'h', '0'] = 't' :: 'a' :: 'p' :: (ds1 ++ 'i' :: ds2) := h5
    injection h6 with h7 h8
    exact absurd h7 (by decide)

/-- Claim C7: findVMForPort returns a pair only when the name parses, the
VM with the parsed id is in the list, and one of that VM's interfaces
carries exactly this port name; in each failure case (no pattern match,
no guest with the id, no interface with the name) it returns null — a
normal outcome, not an error (the function is total). -/
theorem c7_findVMForPort_spec (p : String) (vms : List VM) :
    (∀ vm iface, findVMForPort p vms = some (vm, iface) →
      vm ∈ vms ∧ iface ∈ vm.interfaces ∧ iface.tap = p ∧
        ∃ t, parseTapName p = some t ∧ vm.vmid = t.1) ∧
    (parseTapName p = none → findVMForPort p vms = none) ∧
    (∀ t, parseTapName p = some t → (∀ vm ∈ vms, vm.vmid ≠ t.1) →
      findVMForPort p vms = none) ∧
    ((∀ vm ∈ vms, ∀ iface ∈ vm.interfaces, iface.tap ≠ p) →
      findVMForPort p vms = none) := by
  refine ⟨?_, ?_, ?_, ?_⟩
  · intro vm iface h
    unfold findVMForPort at h
    split at h
    · exact absurd h (by simp)
    · rename_i t hp
      split at h
      · exact absurd h (by simp)
      · rename_i vm0 hfv
        split at h
        · exact absurd h (by simp)
        · rename_i iface0 hfi
          have hinj : vm0 = vm ∧ iface0 = iface := by
            constructor <;> [exact congrArg Prod.fst (Option.some.inj h);
              exact congrArg Prod.snd (Option.some.inj h)]
          obtain ⟨rfl, rfl⟩ := hinj
          refine ⟨List.mem_of_find?_eq_some hfv, List.mem_of_find?_eq_some hfi,
            ?_, t, hp, ?_⟩
          · have h1 := List.find?_some hfi
            simpa using h1
          · have h2 := List.find?_some hfv
            simpa using h2
  · intro hp
    unfold findVMForPort
    simp [hp]
  · intro t hp hall
    have hnone : vms.find? (fun v => v.vmid == t.1) = none := by
      rw [List.find?_eq_none]
      intro vm hvm
      simpa using hall vm hvm
    unfold findVMForPort
    simp [hp, hnone]
  · intro hall
    unfold findVMForPort
    rcases hp : parseTapName p with _ | t
    · simp
    · rcases hfv : vms.find? (fun v => v.vmid == t.1) with _ | vm
      · simp [hfv]
      · have hvm : vm ∈ vms := List.mem_of_find?_eq_some hfv
        have hnone : vm.interfaces.find? (fun iface => iface.tap == p) = none := by
          rw [List.find?_eq_none]
          intro iface hiface
          simpa using hall vm hvm iface hiface
        simp [hfv, hnone]

/-- Witness for C7 at concrete inputs: a successful correlation carries a
real interface of the found VM, and the three null cases (bad name, absent
guest id, no matching interface) all return null. -/
theorem c7_witness :
    ((c7vm.interfaces.get ⟨0, by decide⟩) ∈ c7vm.interfaces ∧
      (c7vm.interfaces.get ⟨0, by decide⟩).tap = "tap101i0") ∧
    findVMForPort "eth0" [c7vm] = none ∧
    findVMForPort "tap999i0" [c7vm] = none ∧
    findVMForPort "tap101i5" [c7vm] = none := by
  refine ⟨?_, ?_, ?_, ?_⟩
  · have h := (c7_findVMForPort_spec "tap101i0" [c7vm]).1 c7vm
      (c7vm.interfaces.get ⟨0, by decide⟩) (by decide)
    exact ⟨h.2.1, h.2.2.1⟩
  · exact (c7_findVMForPort_spec "eth0" [c7vm]).2.1 (by decide)
  · exact (c7_findVMForPort_spec "tap999i0" [c7vm]).2.2.1 (999, 0) (by decide)
      (by decide)
  · exact (c7_findVMForPort_spec "tap101i5" [c7vm]).2.2.2 (by decide)

/-! ### Identifier string facts

Node ids are bridge-(name), vm-(decimal id), ct-(decimal id); the three
families are disjoint (distinct first characters) and the numeric families
are injective in the id. -/

theorem vm_id_inj {a b : Nat} (h : "vm-" ++ decStr a = "vm-" ++ decStr b) : a = b := by
  have h2 : 'v' :: 'm' :: '-' :: (decStr a).data = 'v' :: 'm' :: '-' :: (decStr b).data :=
    congrArg String.data h
  injection h2 with h3 h2
  injection h2 with h3 h2
  injection h2 with h3 h2
  exact decChars_injective h2

theorem ct_id_inj {a b : Nat} (h : "ct-" ++ decStr a = "ct-" ++ decStr b) : a = b := by
  have h2 : 'c' :: 't' :: '-' :: (decStr a).data = 'c' :: 't' :: '-' :: (decStr b).data :=
    congrArg String.data h
  injection h2 with h3 h2
  injection h2 with h3 h2
  injection h2 with h3 h2
  exact decChars_injective h2

theorem bridge_id_ne_vm_id (s : String) (v : Nat) :
    "bridge-" ++ s ≠ "vm-" ++ decStr v := by
  intro h
  have h2 : 'b' :: 'r' :: 'i' :: 'd' :: 'g' :: 'e' :: '-' :: s.data =
      'v' :: 'm' :: '-' :: (decStr v).data := congrArg String.data h
  injection h2 with h3 h4
  exact absurd h3 (by decide)

theorem bridge_id_ne_ct_id (s : String) (c : Nat) :
    "bridge-" ++ s ≠ "ct-" ++ decStr c := by
  intro h
  have h2 : 'b' :: 'r' :: 'i' :: 'd' :: 'g' :: 'e' :: '-' :: s.data =
      'c' :: 't' :: '-' :: (decStr c).data := congrArg String.data h
  injection h2 with h3 h4
  exact absurd h3 (by decide)

theorem ct_id_ne_vm_id (c v : Nat) : "ct-" ++ decStr c ≠ "vm-" ++ decStr v := by
  intro h
  have h2 : 'c' :: 't' :: '-' :: (decStr c).data = 'v' :: 'm' :: '-' :: (decStr v).data :=
    congrArg String.data h
  injection h2 with h3 h4
  exact absurd h3 (by decide)

theorem pushSourcePort_inv (placedV placedC : List Nat) (monId : String)
    (acc : List SourcePort) (pname : String)
    (h : (sourcePairs acc).Nodup ∧ ∀ sp ∈ acc, sp.deviceId ≠ monId) :
    (sourcePairs (pushSourcePort placedV placedC monId acc pname)).Nodup ∧
      ∀ sp ∈ pushSourcePort placedV placedC monId acc pname, sp.deviceId ≠ monId := by
  unfold pushSourcePort
  split
  case h_1 vmid htap =>
    split
    case isTrue hg =>
      have hnotin : ({ deviceId := "vm-" ++ decStr vmid, portName := pname } : SourcePort) ∉ acc := by
        intro hin
        have hfind := hg.2.2
        rw [Option.isNone_iff_eq_none, List.find?_eq_none] at hfind
        have := hfind _ hin
        simp at this
      constructor
      · rw [sourcePairs, List.map_append]
        rw [List.nodup_append]
        refine ⟨h.1, by simp, ?_⟩
        intro x hx
        simp only [List.map_cons, List.map_nil, List.mem_singleton]
        intro hx2
        subst hx2
        rcases List.mem_map.1 hx with ⟨sp, hsp, hspx⟩
        have hfind := hg.2.2
        rw [Option.isNone_iff_eq_none, List.find?_eq_none] at hfind
        have h5 := hfind sp hsp
        have h6 : sp.deviceId = "vm-" ++ decStr vmid := congrArg Prod.fst hspx
        have h7 : sp.portName = pname := congrArg Prod.snd hspx
        rw [h6, h7] at h5
        simp at h5
      · intro sp hsp
        rcases List.mem_append.1 hsp with hsp | hsp
        · exact h.2 sp hsp
        · rw [List.mem_singleton] at hsp
          subst hsp
          exact hg.2.1
    case isFalse => exact h
  case h_2 htap =>
    split
    case h_1 ctid hveth =>
      split
      case isTrue hg =>
        constructor
        · rw [sourcePairs, List.map_append]
          rw [List.nodup_append]
          refine ⟨h.1, by simp, ?_⟩
          intro x hx
          simp only [List.map_cons, List.map_nil, List.mem_singleton]
          intro hx2
          subst hx2
          rcases List.mem_map.1 hx with ⟨sp, hsp, hspx⟩
          have hfind := hg.2.2
          rw [Option.isNone_iff_eq_none, List.find?_eq_none] at hfind
          have h5 := hfind sp hsp
          have h6 : sp.deviceId = "ct-" ++ decStr ctid := congrArg Prod.fst hspx
          have h7 : sp.portName = pname := congrArg Prod.snd hspx
          rw [h6, h7] at h5
          simp at h5
        · intro sp hsp
          rcases List.mem_append.1 hsp with hsp | hsp
          · exact h.2 sp hsp
          · rw [List.mem_singleton] at hsp
            subst hsp
            exact hg.2.1
      case isFalse => exact h
    case h_2 => exact h

theorem foldl_pushSourcePort_inv (placedV placedC : List Nat) (monId : String)
    (names : List String) (acc : List SourcePort)
    (h : (sourcePairs acc).Nodup ∧ ∀ sp ∈ acc, sp.deviceId ≠ monId) :
    (sourcePairs (names.foldl (pushSourcePort placedV placedC monId) acc)).Nodup ∧
      ∀ sp ∈ names.foldl (pushSourcePort placedV placedC monId) acc,
        sp.deviceId ≠ monId := by
  induction names generalizing acc with
  | nil => exact h
  | cons a l ih =>
    exact ih _ (pushSourcePort_inv placedV placedC monId acc a h)

/-- Claim C4: for every mirror (select-all or explicit), the resolved
source set never contains the monitoring device that owns the mirror's
output port (no self-mirroring), it contains no duplicate
(device id, port name) pair, and consequently no emitted mirror edge is a
self-loop. -/
theorem c4_mirror_sources_invariant (placedV placedC : List Nat) (b : Bridge)
    (m : Mirror) :
    (sourcePairs (resolveMirror placedV placedC b m)).Nodup ∧
    (∀ op monId, outputPortOf m = some op →
      monitoringDeviceIdOf placedV placedC op = some monId →
      ∀ sp ∈ resolveMirror placedV placedC b m, sp.deviceId ≠ monId) ∧
    (∀ e ∈ mirrorEdgesOf placedV placedC b m, e.source ≠ e.target) := by
  refine ⟨?_, ?_, ?_⟩
  · unfold resolveMirror
    split
    · simp [sourcePairs]
    · split
      · simp [sourcePairs]
      · exact (foldl_pushSourcePort_inv _ _ _ _ [] (by simp [sourcePairs])).1
  · intro op monId hop hmon sp hsp
    unfold resolveMirror at hsp
    simp only [hop, hmon] at hsp
    exact (foldl_pushSourcePort_inv placedV placedC monId _ [] (by simp [sourcePairs])).2
      sp hsp
  · intro e he
    unfold mirrorEdgesOf at he
    split at he
    · simp at he
    · rename_i op hop
      split at he
      · simp at he
      · rename_i monId hmon
        split at he
        · rcases List.mem_map.1 he with ⟨sp, hsp, rfl⟩
          have h2 := (foldl_pushSourcePort_inv placedV placedC monId _ [] (by simp [sourcePairs])).2
            sp hsp
          simpa [mkMirrorEdge] using h2
        · simp at he

/-- Witness for C4 on the select-all scenario of section 8: mirror on
ovsbr0 with output tap103i0; the resolved pairs are vm-101 and vm-102 and
the resolver facts hold there. -/
theorem c4_witness :
    (sourcePairs (resolveMirror [103, 102, 101] []
      { uuid := "b0", name := "ovsbr0",
        ports := [{ uuid := "p1", name := "tap101i0", bridge := none, type := none,
                    tag := none, trunks := none, vlan_mode := none, interfaces := [] },
                  { uuid := "p2", name := "tap102i0", bridge := none, type := none,
                    tag := none, trunks := none, vlan_mode := none, interfaces := [] },
                  { uuid := "p3", name := "tap103i0", bridge := none, type := none,
                    tag := none, trunks := none, vlan_mode := none, interfaces := [] }],
        mirrors := [], cidr := none, comment := none, fail_mode := none,
        datapath_type := none }
      { uuid := "mu", name := some "mir", bridge := "ovsbr0", select_src_port := none,
        select_dst_port := none, output_port := some "tap103i0", output_vlan := none,
        select_all := some true })).Nodup ∧
    (∀ sp ∈ resolveMirror [103, 102, 101] []
      { uuid := "b0", name := "ovsbr0",
        ports := [{ uuid := "p1", name := "tap101i0", bridge := none, type := none,
                    tag := none, trunks := none, vlan_mode := none, interfaces := [] },
                  { uuid := "p2", name := "tap102i0", bridge := none, type := none,
                    tag := none, trunks := none, vlan_mode := none, interfaces := [] },
                  { uuid := "p3", name := "tap103i0", bridge := none, type := none,
                    tag := none, trunks := none, vlan_mode := none, interfaces := [] }],
        mirrors := [], cidr := none, comment := none, fail_mode := none,
        datapath_type := none }
      { uuid := "mu", name := some "mir", bridge := "ovsbr0", select_src_port := none,
        select_dst_port := none, output_port := some "tap103i0", output_vlan := none,
        select_all := some true }, sp.deviceId ≠ "vm-" ++ decStr 103) := by
  constructor
  · exact (c4_mirror_sources_invariant [103, 102, 101] [] _ _).1
  · exact (c4_mirror_sources_invariant [103, 102, 101] [] _ _).2.1
      "tap103i0" ("vm-" ++ decStr 103) (by decide) (by decide)

theorem pushSourcePort_reject (placedV placedC : List Nat) (monId : String)
    (acc : List SourcePort) (pname : String)
    (h : correlatesToPlaced placedV placedC pname = false) :
    pushSourcePort placedV placedC monId acc pname = acc := by
  unfold correlatesToPlaced at h
  unfold pushSourcePort
  split
  case h_1 vmid htap =>
    rw [htap] at h
    rw [if_neg]
    intro hg
    rw [decide_eq_false_iff_not] at h
    exact h hg.1
  case h_2 htap =>
    rw [htap] at h
    split
    case h_1 ctid hveth =>
      rw [hveth] at h
      rw [if_neg]
      intro hg
      rw [decide_eq_false_iff_not] at h
      exact h hg.1
    case h_2 => rfl

theorem foldl_pushSourcePort_reject (placedV placedC : List Nat) (monId : String)
    (names : List String) (acc : List SourcePort)
    (h : ∀ pname ∈ names, correlatesToPlaced placedV placedC pname = false) :
    names.foldl (pushSourcePort placedV placedC monId) acc = acc := by
  induction names generalizing acc with
  | nil => rfl
  | cons a l ih =>
    rw [List.foldl_cons, pushSourcePort_reject placedV placedC monId acc a
      (h a (List.mem_cons_self a l))]
    exact ih acc (fun p hp => h p (List.mem_cons_of_mem a hp))

theorem waiters_subset_refreshAll (l : List Nat) (st : FlightSt) (ws ws2 : List Nat)
    (hws : st.waiters = some ws) (hws2 : (refreshAll st l).waiters = some ws2) :
    ∀ x ∈ ws, x ∈ ws2 := by
  induction l generalizing st ws with
  | nil =>
    rw [refreshAll, List.foldl_nil, hws] at hws2
    cases hws2
    exact fun x hx => hx
  | cons b t ih =>
    have hstep : refreshCall st b = { st with waiters := some (b :: ws) } := by
      unfold refreshCall
      rw [hws]
    rw [refreshAll, List.foldl_cons, hstep] at hws2
    intro x hx
    exact ih _ (b :: ws) rfl hws2 x (List.mem_cons_of_mem b hx)

theorem refreshAll_inflight (callers : List Nat) (st : FlightSt) (ws : List Nat)
    (h : st.waiters = some ws) :
    (refreshAll st callers).fetchCount = st.fetchCount ∧
      ∃ ws2, (refreshAll st callers).waiters = some ws2 ∧
        ∀ c ∈ callers, c ∈ ws2 := by
  induction callers generalizing st ws with
  | nil => exact ⟨rfl, ws, h, by simp⟩
  | cons a l ih =>
    have hstep : refreshCall st a = { st with waiters := some (a :: ws) } := by
      unfold refreshCall
      rw [h]
    have h2 := ih { st with waiters := some (a :: ws) } (a :: ws) rfl
    rw [refreshAll, List.foldl_cons, hstep]
    refine ⟨h2.1, ?_⟩
    obtain ⟨ws2, hws2, hmem⟩ := h2.2
    refine ⟨ws2, hws2, ?_⟩
    intro c hc
    rcases List.mem_cons.1 hc with rfl | hc
    · exact waiters_subset_refreshAll l _ (c :: ws) ws2 rfl hws2 c
        (List.mem_cons_self c ws)
    · exact hmem c hc

/-- Claim C9 (spec-modelled): while one fetch is in flight, N additional
refresh callers cause zero further fetch invocations, and when the fetch
completes every caller (the original waiters and all joiners) is delivered
the same resulting entry, which also becomes the cache entry. -/
theorem c9_single_flight (st : FlightSt) (ws : List Nat) (callers : List Nat)
    (result : CacheEntry) (h : st.waiters = some ws) :
    (refreshAll st callers).fetchCount = st.fetchCount ∧
    (∀ c, c ∈ callers ∨ c ∈ ws →
      (c, result) ∈ (completeFetch (refreshAll st callers) result).delivered) ∧
    (completeFetch (refreshAll st callers) result).entry = some result := by
  obtain ⟨hcount, ws2, hws2, hjoin⟩ := refreshAll_inflight callers st ws h
  have hsub := waiters_subset_refreshAll callers st ws ws2 h hws2
  have hcomp : completeFetch (refreshAll st callers) result =
      { fetchCount := (refreshAll st callers).fetchCount, waiters := none,
        delivered := (refreshAll st callers).delivered ++ ws2.map (fun c => (c, result)),
        entry := some result } := by
    unfold completeFetch
    rw [hws2]
  refine ⟨hcount, ?_, by rw [hcomp]⟩
  intro c hc
  rw [hcomp]
  simp only [List.mem_append]
  right
  rw [List.mem_map]
  rcases hc with hc | hc
  · exact ⟨c, hjoin c hc, rfl⟩
  · exact ⟨c, hsub c hc, rfl⟩

/-- Witness for C9: one fetch in flight with caller 0 waiting, three more
callers join; the fetch count stays 1 and all four callers receive the
same entry. -/
theorem c9_witness :
    (refreshAll c9start [1, 2, 3]).fetchCount = 1 ∧
    (∀ c ∈ [0, 1, 2, 3],
      (c, c9entry) ∈ (completeFetch (refreshAll c9start [1, 2, 3]) c9entry).delivered) := by
  have h := c9_single_flight c9start [0] [1, 2, 3] c9entry rfl
  refine ⟨h.1, ?_⟩
  intro c hc
  rcases List.mem_cons.1 hc with hc0 | hc
  · subst hc0
    exact h.2.1 0 (Or.inr (by decide))
  · exact h.2.1 c (Or.inl (by simpa using hc))

/-! ### Lookup-map facts -/

theorem vmGet_go_vmid (id : Nat) (vms : List VM) :
    ∀ acc : Option VM, (∀ w, acc = some w → w.vmid = id) →
      ∀ vm, vms.foldl (fun a v => if v.vmid = id then some v else a) acc = some vm →
        vm.vmid = id := by
  induction vms with
  | nil =>
    intro acc hacc vm h
    exact hacc vm h
  | cons v t ih =>
    intro acc hacc vm h
    rw [List.foldl_cons] at h
    refine ih _ ?_ vm h
    intro w hw
    by_cases hv : v.vmid = id
    · rw [if_pos hv] at hw
      cases hw
      exact hv
    · rw [if_neg hv] at hw
      exact hacc w hw

theorem vmGet_some_vmid {vms : List VM} {id : Nat} {vm : VM}
    (h : vmGet vms id = some vm) : vm.vmid = id :=
  vmGet_go_vmid id vms none (by intro w hw; cases hw) vm h

theorem ctGet_go_ctid (id : Nat) (cts : List Container) :
    ∀ acc : Option Container, (∀ w, acc = some w → w.ctid = id) →
      ∀ ct, cts.foldl (fun a c => if c.ctid = id then some c else a) acc = some ct →
        ct.ctid = id := by
  induction cts with
  | nil =>
    intro acc hacc ct h
    exact hacc ct h
  | cons c t ih =>
    intro acc hacc ct h
    rw [List.foldl_cons] at h
    refine ih _ ?_ ct h
    intro w hw
    by_cases hc : c.ctid = id
    · rw [if_pos hc] at hw
      cases hw
      exact hc
    · rw [if_neg hc] at hw
      exact hacc w hw

theorem ctGet_some_ctid {cts : List Container} {id : Nat} {ct : Container}
    (h : ctGet cts id = some ct) : ct.ctid = id :=
  ctGet_go_ctid id cts none (by intro w hw; cases hw) ct h

/-! ### Guest-node count facts -/

theorem vm_id_eq_iff (a b : Nat) : "vm-" ++ decStr a = "vm-" ++ decStr b ↔ a = b :=
  ⟨vm_id_inj, by intro h; rw [h]⟩

theorem ct_id_eq_iff (a b : Nat) : "ct-" ++ decStr a = "ct-" ++ decStr b ↔ a = b :=
  ⟨ct_id_inj, by intro h; rw [h]⟩

theorem vmNodeCount_append (l1 l2 : List TNode) (v : Nat) :
    vmNodeCount (l1 ++ l2) v = vmNodeCount l1 v + vmNodeCount l2 v :=
  List.countP_append _ l1 l2

theorem ctNodeCount_append (l1 l2 : List TNode) (c : Nat) :
    ctNodeCount (l1 ++ l2) c = ctNodeCount l1 c + ctNodeCount l2 c :=
  List.countP_append _ l1 l2

theorem vmNodeCount_single_vm {n : TNode} {w : Nat} (h : n.id = "vm-" ++ decStr w)
    (v : Nat) : vmNodeCount [n] v = if w = v then 1 else 0 := by
  unfold vmNodeCount
  rw [List.countP_cons, List.countP_nil]
  by_cases hwv : w = v
  · subst hwv
    rw [if_pos (by simp [h]), if_pos rfl]
  · rw [if_neg, if_neg hwv]
    simp only [beq_iff_eq, h]
    rw [vm_id_eq_iff]
    exact hwv

theorem vmNodeCount_single_ct {n : TNode} {w : Nat} (h : n.id = "ct-" ++ decStr w)
    (v : Nat) : vmNodeCount [n] v = 0 := by
  unfold vmNodeCount
  rw [List.countP_cons, List.countP_nil, if_neg]
  simp only [beq_iff_eq, h]
  exact ct_id_ne_vm_id w v

theorem vmNodeCount_single_bridge {n : TNode} {s : String} (h : n.id = "bridge-" ++ s)
    (v : Nat) : vmNodeCount [n] v = 0 := by
  unfold vmNodeCount
  rw [List.countP_cons, List.countP_nil, if_neg]
  simp only [beq_iff_eq, h]
  exact bridge_id_ne_vm_id s v

theorem ctNodeCount_single_ct {n : TNode} {w : Nat} (h : n.id = "ct-" ++ decStr w)
    (c : Nat) : ctNodeCount [n] c = if w = c then 1 else 0 := by
  unfold ctNodeCount
  rw [List.countP_cons, List.countP_nil]
  by_cases hwc : w = c
  · subst hwc
    rw [if_pos (by simp [h]), if_pos rfl]
  · rw [if_neg, if_neg hwc]
    simp only [beq_iff_eq, h]
    rw [ct_id_eq_iff]
    exact hwc

theorem ctNodeCount_single_vm {n : TNode} {w : Nat} (h : n.id = "vm-" ++ decStr w)
    (c : Nat) : ctNodeCount [n] c = 0 := by
  unfold ctNodeCount
  rw [List.countP_cons, List.countP_nil, if_neg]
  simp only [beq_iff_eq, h]
  intro h2
  exact ct_id_ne_vm_id c w h2.symm

theorem ctNodeCount_single_bridge {n : TNode} {s : String} (h : n.id = "bridge-" ++ s)
    (c : Nat) : ctNodeCount [n] c = 0 := by
  unfold ctNodeCount
  rw [List.countP_cons, List.countP_nil, if_neg]
  simp only [beq_iff_eq, h]
  exact bridge_id_ne_ct_id s c

theorem PlaceInv_addVMNode (vms : List VM) (cts : List Container) (st : PlaceSt)
    (vm : VM) (vmid : Nat) (x y : Int)
    (hm : vmid ∉ st.placedVMs) (hg : vmGet vms vmid = some vm)
    (h : PlaceInv vms cts st) :
    PlaceInv vms cts
      ⟨st.nodes ++ [vmNodeOf vm x y], vmid :: st.placedVMs, st.placedCTs⟩ := by
  have hvm : vm.vmid = vmid := vmGet_some_vmid hg
  have hid : (vmNodeOf vm x y).id = "vm-" ++ decStr vmid := by
    rw [show (vmNodeOf vm x y).id = "vm-" ++ decStr vm.vmid from rfl, hvm]
  refine ⟨?_, ?_, ?_, ?_, ?_, ?_⟩ <;> dsimp only
  · intro v
    rw [vmNodeCount_append, vmNodeCount_single_vm hid v, h.1 v]
    by_cases hv : vmid = v
    · subst hv
      rw [if_neg hm, if_pos rfl, if_pos (List.mem_cons_self vmid st.placedVMs)]
    · rw [if_neg hv]
      by_cases hmem : v ∈ st.placedVMs
      · rw [if_pos hmem, if_pos (List.mem_cons_of_mem vmid hmem)]
      · rw [if_neg hmem, if_neg]
        intro h2
        rcases List.mem_cons.1 h2 with h2 | h2
        · exact hv h2.symm
        · exact hmem h2
  · intro c
    rw [ctNodeCount_append, ctNodeCount_single_vm hid c, h.2.1 c]
    omega
  · intro v hv
    rcases List.mem_cons.1 hv with hv | hv
    · subst hv
      exact ⟨vmNodeOf vm x y, List.mem_append.2 (Or.inr (List.mem_singleton.2 rfl)),
        hid, rfl⟩
    · obtain ⟨n, hn, hn2, hn3⟩ := h.2.2.1 v hv
      exact ⟨n, List.mem_append.2 (Or.inl hn), hn2, hn3⟩
  · intro c hc
    obtain ⟨n, hn, hn2, hn3⟩ := h.2.2.2.1 c hc
    exact ⟨n, List.mem_append.2 (Or.inl hn), hn2, hn3⟩
  · intro v hv
    rcases List.mem_cons.1 hv with hv | hv
    · subst hv
      rw [hg]
      rfl
    · exact h.2.2.2.2.1 v hv
  · exact h.2.2.2.2.2

theorem PlaceInv_addCTNode (vms : List VM) (cts : List Container) (st : PlaceSt)
    (ct : Container) (ctid : Nat) (x y : Int)
    (hm : ctid ∉ st.placedCTs) (hg : ctGet cts ctid = some ct)
    (h : PlaceInv vms cts st) :
    PlaceInv vms cts
      ⟨st.nodes ++ [ctNodeOf ct x y], st.placedVMs, ctid :: st.placedCTs⟩ := by
  have hct : ct.ctid = ctid := ctGet_some_ctid hg
  have hid : (ctNodeOf ct x y).id = "ct-" ++ decStr ctid := by
    rw [show (ctNodeOf ct x y).id = "ct-" ++ decStr ct.ctid from rfl, hct]
  refine ⟨?_, ?_, ?_, ?_, ?_, ?_⟩ <;> dsimp only
  · intro v
    rw [vmNodeCount_append, vmNodeCount_single_ct hid v, h.1 v]
    omega
  · intro c
    rw [ctNodeCount_append, ctNodeCount_single_ct hid c, h.2.1 c]
    by_cases hc : ctid = c
    · subst hc
      rw [if_neg hm, if_pos rfl, if_pos (List.mem_cons_self ctid st.placedCTs)]
    · rw [if_neg hc]
      by_cases hmem : c ∈ st.placedCTs
      · rw [if_pos hmem, if_pos (List.mem_cons_of_mem ctid hmem)]
      · rw [if_neg hmem, if_neg]
        intro h2
        rcases List.mem_cons.1 h2 with h2 | h2
        · exact hc h2.symm
        · exact hmem h2
  · intro v hv
    obtain ⟨n, hn, hn2, hn3⟩ := h.2.2.1 v hv
    exact ⟨n, List.mem_append.2 (Or.inl hn), hn2, hn3⟩
  · intro c hc
    rcases List.mem_cons.1 hc with hc | hc
    · subst hc
      exact ⟨ctNodeOf ct x y, List.mem_append.2 (Or.inr (List.mem_singleton.2 rfl)),
        hid, rfl⟩
    · obtain ⟨n, hn, hn2, hn3⟩ := h.2.2.2.1 c hc
      exact ⟨n, List.mem_append.2 (Or.inl hn), hn2, hn3⟩
  · exact h.2.2.2.2.1
  · intro c hc
    rcases List.mem_cons.1 hc with hc | hc
    · subst hc
      rw [hg]
      rfl
    · exact h.2.2.2.2.2 c hc

theorem PlaceInv_addBridgeNode (vms : List VM) (cts : List Container) (st : PlaceSt)
    (n : TNode) (s : String) (hid : n.id = "bridge-" ++ s)
    (h : PlaceInv vms cts st) :
    PlaceInv vms cts ⟨st.nodes ++ [n], st.placedVMs, st.placedCTs⟩ := by
  refine ⟨?_, ?_, ?_, ?_, ?_, ?_⟩ <;> dsimp only
  · intro v
    rw [vmNodeCount_append, vmNodeCount_single_bridge hid v, h.1 v]
    omega
  · intro c
    rw [ctNodeCount_append, ctNodeCount_single_bridge hid c, h.2.1 c]
    omega
  · intro v hv
    obtain ⟨n2, hn, hn2, hn3⟩ := h.2.2.1 v hv
    exact ⟨n2, List.mem_append.2 (Or.inl hn), hn2, hn3⟩
  · intro c hc
    obtain ⟨n2, hn, hn2, hn3⟩ := h.2.2.2.1 c hc
    exact ⟨n2, List.mem_append.2 (Or.inl hn), hn2, hn3⟩
  · exact h.2.2.2.2.1
  · exact h.2.2.2.2.2

theorem placePortVM_cases (vms : List VM) (bx : Int) (acc : PlaceSt × Int × Int)
    (p : Port) :
    (placePortVM vms bx acc p = acc ∧
      ∀ vmid, tapVmid p.name = some vmid → (vmGet vms vmid).isSome →
        vmid ∈ acc.1.placedVMs) ∨
    (∃ vmid vm, tapVmid p.name = some vmid ∧ vmGet vms vmid = some vm ∧
      vmid ∉ acc.1.placedVMs ∧
      placePortVM vms bx acc p =
        (⟨acc.1.nodes ++ [vmNodeOf vm (bx - 250) acc.2.1], vmid :: acc.1.placedVMs,
          acc.1.placedCTs⟩, acc.2.1 + 200, acc.2.2)) := by
  unfold placePortVM
  rcases htap : tapVmid p.name with _ | vmid
  · left
    refine ⟨rfl, ?_⟩
    intro w hw
    exact Option.noConfusion hw
  · dsimp only
    rcases hvg : vmGet vms vmid with _ | vm
    · left
      refine ⟨rfl, ?_⟩
      intro w hw hs
      injection hw with hw
      subst hw
      rw [hvg] at hs
      simp at hs
    · dsimp only
      by_cases hmem : vmid ∈ acc.1.placedVMs
      · left
        rw [if_pos hmem]
        refine ⟨rfl, ?_⟩
        intro w hw hs
        injection hw with hw
        subst hw
        exact hmem
      · right
        rw [if_neg hmem]
        exact ⟨vmid, vm, rfl, hvg, hmem, rfl⟩

theorem placePortCT_cases (cts : List Container) (bx : Int)
    (acc : PlaceSt × Int × Int) (p : Port) :
    (placePortCT cts bx acc p = acc ∧
      ∀ ctid, vethCtid p.name = some ctid → (ctGet cts ctid).isSome →
        ctid ∈ acc.1.placedCTs) ∨
    (∃ ctid ct, vethCtid p.name = some ctid ∧ ctGet cts ctid = some ct ∧
      ctid ∉ acc.1.placedCTs ∧
      placePortCT cts bx acc p =
        (⟨acc.1.nodes ++ [ctNodeOf ct (bx + 250) acc.2.2], acc.1.placedVMs,
          ctid :: acc.1.placedCTs⟩, acc.2.1, acc.2.2 + 200)) := by
  unfold placePortCT
  rcases hveth : vethCtid p.name with _ | ctid
  · left
    refine ⟨rfl, ?_⟩
    intro w hw
    exact Option.noConfusion hw
  · dsimp only
    rcases hcg : ctGet cts ctid with _ | ct
    · left
      refine ⟨rfl, ?_⟩
      intro w hw hs
      injection hw with hw
      subst hw
      rw [hcg] at hs
      simp at hs
    · dsimp only
      by_cases hmem : ctid ∈ acc.1.placedCTs
      · left
        rw [if_pos hmem]
        refine ⟨rfl, ?_⟩
        intro w hw hs
        injection hw with hw
        subst hw
        exact hmem
      · right
        rw [if_neg hmem]
        exact ⟨ctid, ct, rfl, hcg, hmem, rfl⟩

theorem placePortVM_inv (vms : List VM) (cts : List Container) (bx : Int)
    (acc : PlaceSt × Int × Int) (p : Port) (h : PlaceInv vms cts acc.1) :
    PlaceInv vms cts (placePortVM vms bx acc p).1 := by
  rcases placePortVM_cases vms bx acc p with ⟨heq, h2⟩ | ⟨vmid, vm, htap, hvg, hmem, heq⟩
  · rw [heq]
    exact h
  · rw [heq]
    exact PlaceInv_addVMNode vms cts acc.1 vm vmid (bx - 250) acc.2.1 hmem hvg h

theorem placePortCT_inv (vms : List VM) (cts : List Container) (bx : Int)
    (acc : PlaceSt × Int × Int) (p : Port) (h : PlaceInv vms cts acc.1) :
    PlaceInv vms cts (placePortCT cts bx acc p).1 := by
  rcases placePortCT_cases cts bx acc p with ⟨heq, h2⟩ | ⟨ctid, ct, hveth, hcg, hmem, heq⟩
  · rw [heq]
    exact h
  · rw [heq]
    exact PlaceInv_addCTNode vms cts acc.1 ct ctid (bx + 250) acc.2.2 hmem hcg h

theorem placePort_inv (vms : List VM) (cts : List Container) (bx : Int)
    (acc : PlaceSt × Int × Int) (p : Port) (h : PlaceInv vms cts acc.1) :
    PlaceInv vms cts (placePort vms cts bx acc p).1 :=
  placePortCT_inv vms cts bx _ p (placePortVM_inv vms cts bx acc p h)

theorem placePortVM_placedVMs_mono {vms : List VM} {bx : Int}
    {acc : PlaceSt × Int × Int} {p : Port} {v : Nat} (h : v ∈ acc.1.placedVMs) :
    v ∈ (placePortVM vms bx acc p).1.placedVMs := by
  rcases placePortVM_cases vms bx acc p with ⟨heq, h2⟩ | ⟨vmid, vm, htap, hvg, hmem, heq⟩
  · rw [heq]
    exact h
  · rw [heq]
    exact List.mem_cons_of_mem vmid h

theorem placePortVM_placedCTs_eq (vms : List VM) (bx : Int)
    (acc : PlaceSt × Int × Int) (p : Port) :
    (placePortVM vms bx acc p).1.placedCTs = acc.1.placedCTs := by
  rcases placePortVM_cases vms bx acc p with ⟨heq, h2⟩ | ⟨vmid, vm, htap, hvg, hmem, heq⟩
  · rw [heq]
  · rw [heq]

theorem placePortCT_placedVMs_eq (cts : List Container) (bx : Int)
    (acc : PlaceSt × Int × Int) (p : Port) :
    (placePortCT cts bx acc p).1.placedVMs = acc.1.placedVMs := by
  rcases placePortCT_cases cts bx acc p with ⟨heq, h2⟩ | ⟨ctid, ct, hveth, hcg, hmem, heq⟩
  · rw [heq]
  · rw [heq]

theorem placePortCT_placedCTs_mono {cts : List Container} {bx : Int}
    {acc : PlaceSt × Int × Int} {p : Port} {c : Nat} (h : c ∈ acc.1.placedCTs) :
    c ∈ (placePortCT cts bx acc p).1.placedCTs := by
  rcases placePortCT_cases cts bx acc p with ⟨heq, h2⟩ | ⟨ctid, ct, hveth, hcg, hmem, heq⟩
  · rw [heq]
    exact h
  · rw [heq]
    exact List.mem_cons_of_mem ctid h

theorem placePortVM_trigger {vms : List VM} {bx : Int}
    {acc : PlaceSt × Int × Int} {p : Port} {v : Nat}
    (htap : tapVmid p.name = some v) (hvg : (vmGet vms v).isSome) :
    v ∈ (placePortVM vms bx acc p).1.placedVMs := by
  rcases placePortVM_cases vms bx acc p with ⟨heq, h2⟩ | ⟨vmid, vm, htap2, hvg2, hmem, heq⟩
  · rw [heq]
    exact h2 v htap hvg
  · rw [heq]
    rw [htap2] at htap
    cases htap
    exact List.mem_cons_self v _

theorem placePortCT_trigger {cts : List Container} {bx : Int}
    {acc : PlaceSt × Int × Int} {p : Port} {c : Nat}
    (hveth : vethCtid p.name = some c) (hcg : (ctGet cts c).isSome) :
    c ∈ (placePortCT cts bx acc p).1.placedCTs := by
  rcases placePortCT_cases cts bx acc p with ⟨heq, h2⟩ | ⟨ctid, ct, hveth2, hcg2, hmem, heq⟩
  · rw [heq]
    exact h2 c hveth hcg
  · rw [heq]
    rw [hveth2] at hveth
    cases hveth
    exact List.mem_cons_self c _

theorem placePort_placedVMs_mono {vms : List VM} {cts : List Container} {bx : Int}
    {acc : PlaceSt × Int × Int} {p : Port} {v : Nat} (h : v ∈ acc.1.placedVMs) :
    v ∈ (placePort vms cts bx acc p).1.placedVMs := by
  unfold placePort
  rw [placePortCT_placedVMs_eq]
  exact placePortVM_placedVMs_mono h

theorem placePort_placedCTs_mono {vms : List VM} {cts : List Container} {bx : Int}
    {acc : PlaceSt × Int × Int} {p : Port} {c : Nat} (h : c ∈ acc.1.placedCTs) :
    c ∈ (placePort vms cts bx acc p).1.placedCTs := by
  unfold placePort
  refine placePortCT_placedCTs_mono ?_
  rw [placePortVM_placedCTs_eq]
  exact h

theorem placePort_trigger_vm {vms : List VM} {cts : List Container} {bx : Int}
    {acc : PlaceSt × Int × Int} {p : Port} {v : Nat}
    (htap : tapVmid p.name = some v) (hvg : (vmGet vms v).isSome) :
    v ∈ (placePort vms cts bx acc p).1.placedVMs := by
  unfold placePort
  rw [placePortCT_placedVMs_eq]
  exact placePortVM_trigger htap hvg

theorem placePort_trigger_ct {vms : List VM} {cts : List Container} {bx : Int}
    {acc : PlaceSt × Int × Int} {p : Port} {c : Nat}
    (hveth : vethCtid p.name = some c) (hcg : (ctGet cts c).isSome) :
    c ∈ (placePort vms cts bx acc p).1.placedCTs :=
  placePortCT_trigger hveth hcg

theorem foldPorts_placedVMs_mono (vms : List VM) (cts : List Container) (bx : Int)
    (ports : List Port) (acc : PlaceSt × Int × Int) {v : Nat}
    (h : v ∈ acc.1.placedVMs) :
    v ∈ (ports.foldl (placePort vms cts bx) acc).1.placedVMs := by
  induction ports generalizing acc with
  | nil => exact h
  | cons q t ih =>
    rw [List.foldl_cons]
    exact ih _ (placePort_placedVMs_mono h)

theorem foldPorts_placedCTs_mono (vms : List VM) (cts : List Container) (bx : Int)
    (ports : List Port) (acc : PlaceSt × Int × Int) {c : Nat}
    (h : c ∈ acc.1.placedCTs) :
    c ∈ (ports.foldl (placePort vms cts bx) acc).1.placedCTs := by
  induction ports generalizing acc with
  | nil => exact h
  | cons q t ih =>
    rw [List.foldl_cons]
    exact ih _ (placePort_placedCTs_mono h)

theorem foldPorts_trigger_vm (vms : List VM) (cts : List Container) (bx : Int)
    (ports : List Port) (acc : PlaceSt × Int × Int) {p : Port} {v : Nat}
    (hp : p ∈ ports) (htap : tapVmid p.name = some v)
    (hvg : (vmGet vms v).isSome) :
    v ∈ (ports.foldl (placePort vms cts bx) acc).1.placedVMs := by
  induction ports generalizing acc with
  | nil => cases hp
  | cons q t ih =>
    rw [List.foldl_cons]
    rcases List.mem_cons.1 hp with hq | hq
    · subst hq
      exact foldPorts_placedVMs_mono vms cts bx t _ (placePort_trigger_vm htap hvg)
    · exact ih _ hq

theorem foldPorts_trigger_ct (vms : List VM) (cts : List Container) (bx : Int)
    (ports : List Port) (acc : PlaceSt × Int × Int) {p : Port} {c : Nat}
    (hp : p ∈ ports) (hveth : vethCtid p.name = some c)
    (hcg : (ctGet cts c).isSome) :
    c ∈ (ports.foldl (placePort vms cts bx) acc).1.placedCTs := by
  induction ports generalizing acc with
  | nil => cases hp
  | cons q t ih =>
    rw [List.foldl_cons]
    rcases List.mem_cons.1 hp with hq | hq
    · subst hq
      exact foldPorts_placedCTs_mono vms cts bx t _ (placePort_trigger_ct hveth hcg)
    · exact ih _ hq

theorem foldPorts_inv (vms : List VM) (cts : List Container) (bx : Int)
    (ports : List Port) (acc : PlaceSt × Int × Int)
    (h : PlaceInv vms cts acc.1) :
    PlaceInv vms cts (ports.foldl (placePort vms cts bx) acc).1 := by
  induction ports generalizing acc with
  | nil => exact h
  | cons q t ih =>
    rw [List.foldl_cons]
    exact ih _ (placePort_inv vms cts bx acc q h)

theorem placeBridge_inv (vms : List VM) (cts : List Container)
    (bridges : List Bridge) (st : PlaceSt) (ib : Nat × Bridge)
    (h : PlaceInv vms cts st) :
    PlaceInv vms cts (placeBridge vms cts bridges st ib) := by
  unfold placeBridge
  refine foldPorts_inv vms cts _ _ _ ?_
  exact PlaceInv_addBridgeNode vms cts st _ ib.2.name rfl h

theorem placeBridge_placedVMs_mono (vms : List VM) (cts : List Container)
    (bridges : List Bridge) (st : PlaceSt) (ib : Nat × Bridge) {v : Nat}
    (h : v ∈ st.placedVMs) :
    v ∈ (placeBridge vms cts bridges st ib).placedVMs := by
  unfold placeBridge
  exact foldPorts_placedVMs_mono vms cts _ _ _ h

theorem placeBridge_placedCTs_mono (vms : List VM) (cts : List Container)
    (bridges : List Bridge) (st : PlaceSt) (ib : Nat × Bridge) {c : Nat}
    (h : c ∈ st.placedCTs) :
    c ∈ (placeBridge vms cts bridges st ib).placedCTs := by
  unfold placeBridge
  exact foldPorts_placedCTs_mono vms cts _ _ _ h

theorem placeBridge_trigger_vm (vms : List VM) (cts : List Container)
    (bridges : List Bridge) (st : PlaceSt) (ib : Nat × Bridge) {p : Port} {v : Nat}
    (hp : p ∈ ib.2.ports) (htap : tapVmid p.name = some v)
    (hvg : (vmGet vms v).isSome) :
    v ∈ (placeBridge vms cts bridges st ib).placedVMs := by
  unfold placeBridge
  exact foldPorts_trigger_vm vms cts _ _ _ hp htap hvg

theorem placeBridge_trigger_ct (vms : List VM) (cts : List Container)
    (bridges : List Bridge) (st : PlaceSt) (ib : Nat × Bridge) {p : Port} {c : Nat}
    (hp : p ∈ ib.2.ports) (hveth : vethCtid p.name = some c)
    (hcg : (ctGet cts c).isSome) :
    c ∈ (placeBridge vms cts bridges st ib).placedCTs := by
  unfold placeBridge
  exact foldPorts_trigger_ct vms cts _ _ _ hp hveth hcg

theorem foldBridges_placedVMs_mono (vms : List VM) (cts : List Container)
    (bridges : List Bridge) (l : List (Nat × Bridge)) (st : PlaceSt) {v : Nat}
    (h : v ∈ st.placedVMs) :
    v ∈ (l.foldl (placeBridge vms cts bridges) st).placedVMs := by
  induction l generalizing st with
  | nil => exact h
  | cons q t ih =>
    rw [List.foldl_cons]
    exact ih _ (placeBridge_placedVMs_mono vms cts bridges st q h)

theorem foldBridges_placedCTs_mono (vms : List VM) (cts : List Container)
    (bridges : List Bridge) (l : List (Nat × Bridge)) (st : PlaceSt) {c : Nat}
    (h : c ∈ st.placedCTs) :
    c ∈ (l.foldl (placeBridge vms cts bridges) st).placedCTs := by
  induction l generalizing st with
  | nil => exact h
  | cons q t ih =>
    rw [List.foldl_cons]
    exact ih _ (placeBridge_placedCTs_mono vms cts bridges st q h)

theorem foldBridges_inv (vms : List VM) (cts : List Container)
    (bridges : List Bridge) (l : List (Nat × Bridge)) (st : PlaceSt)
    (h : PlaceInv vms cts st) :
    PlaceInv vms cts (l.foldl (placeBridge vms cts bridges) st) := by
  induction l generalizing st with
  | nil => exact h
  | cons q t ih =>
    rw [List.foldl_cons]
    exact ih _ (placeBridge_inv vms cts bridges st q h)

theorem PlaceInv_empty (vms : List VM) (cts : List Container) :
    PlaceInv vms cts { nodes := [], placedVMs := [], placedCTs := [] } := by
  refine ⟨?_, ?_, ?_, ?_, ?_, ?_⟩ <;> simp [vmNodeCount, ctNodeCount]

theorem phaseA_inv (bridges : List Bridge) (vms : List VM) (cts : List Container) :
    PlaceInv vms cts (phaseA bridges vms cts) :=
  foldBridges_inv vms cts bridges bridges.enum _ (PlaceInv_empty vms cts)

theorem mem_enum_of_mem {b : Bridge} {bridges : List Bridge} (hb : b ∈ bridges) :
    ∃ i, (i, b) ∈ bridges.enum := by
  have h2 : b ∈ bridges.enum.map Prod.snd := by
    rw [List.enum_map_snd]
    exact hb
  rcases List.mem_map.1 h2 with ⟨ib, hib, hsnd⟩
  exact ⟨ib.1, by rwa [show (ib.1, b) = ib from Prod.ext rfl hsnd.symm]⟩

theorem foldBridges_trigger_vm (vms : List VM) (cts : List Container)
    (bridges : List Bridge) (l : List (Nat × Bridge)) (st : PlaceSt)
    {i : Nat} {b : Bridge} {p : Port} {v : Nat}
    (hib : (i, b) ∈ l) (hp : p ∈ b.ports) (htap : tapVmid p.name = some v)
    (hvg : (vmGet vms v).isSome) :
    v ∈ (l.foldl (placeBridge vms cts bridges) st).placedVMs := by
  induction l generalizing st with
  | nil => cases hib
  | cons q t ih =>
    rw [List.foldl_cons]
    rcases List.mem_cons.1 hib with hq | hq
    · subst hq
      exact foldBridges_placedVMs_mono vms cts bridges t _
        (placeBridge_trigger_vm vms cts bridges st (i, b) hp htap hvg)
    · exact ih _ hq

theorem foldBridges_trigger_ct (vms : List VM) (cts : List Container)
    (bridges : List Bridge) (l : List (Nat × Bridge)) (st : PlaceSt)
    {i : Nat} {b : Bridge} {p : Port} {c : Nat}
    (hib : (i, b) ∈ l) (hp : p ∈ b.ports) (hveth : vethCtid p.name = some c)
    (hcg : (ctGet cts c).isSome) :
    c ∈ (l.foldl (placeBridge vms cts bridges) st).placedCTs := by
  induction l generalizing st with
  | nil => cases hib
  | cons q t ih =>
    rw [List.foldl_cons]
    rcases List.mem_cons.1 hib with hq | hq
    · subst hq
      exact foldBridges_placedCTs_mono vms cts bridges t _
        (placeBridge_trigger_ct vms cts bridges st (i, b) hp hveth hcg)
    · exact ih _ hq

theorem phaseA_trigger_vm (bridges : List Bridge) (vms : List VM)
    (cts : List Container) {b : Bridge} {p : Port} {v : Nat}
    (hb : b ∈ bridges) (hp : p ∈ b.ports) (htap : tapVmid p.name = some v)
    (hvg : (vmGet vms v).isSome) :
    v ∈ (phaseA bridges vms cts).placedVMs := by
  obtain ⟨i, hib⟩ := mem_enum_of_mem hb
  exact foldBridges_trigger_vm vms cts bridges bridges.enum _ hib hp htap hvg

theorem phaseA_trigger_ct (bridges : List Bridge) (vms : List VM)
    (cts : List Container) {b : Bridge} {p : Port} {c : Nat}
    (hb : b ∈ bridges) (hp : p ∈ b.ports) (hveth : vethCtid p.name = some c)
    (hcg : (ctGet cts c).isSome) :
    c ∈ (phaseA bridges vms cts).placedCTs := by
  obtain ⟨i, hib⟩ := mem_enum_of_mem hb
  exact foldBridges_trigger_ct vms cts bridges bridges.enum _ hib hp hveth hcg

/-! ### Stopped-phase step characterization and fold lemmas -/

theorem stoppedVMStep_cases (bridges : List Bridge) (st : StopSt) (vm : VM) :
    (stoppedVMStep bridges st vm = st ∧ (vm.vmid ∈ st.placed ∨ vm.interfaces = [])) ∨
    (vm.vmid ∉ st.placed ∧ vm.interfaces ≠ [] ∧
      ((bridgeXOf bridges (firstIfaceBridgeKey vm.interfaces) = none ∧
        stoppedVMStep bridges st vm = ⟨vm.vmid :: st.placed, st.nodes, st.edges⟩) ∨
       (∃ bx, bridgeXOf bridges (firstIfaceBridgeKey vm.interfaces) = some bx ∧
        stoppedVMStep bridges st vm =
          ⟨vm.vmid :: st.placed,
           st.nodes ++ [stoppedVMNode vm bx (vm.vmid :: st.placed).length],
           st.edges ++ vm.interfaces.map (stoppedVMEdge vm)⟩))) := by
  unfold stoppedVMStep
  by_cases hguard : vm.vmid ∈ st.placed ∨ vm.interfaces = []
  · left
    rw [if_pos hguard]
    exact ⟨rfl, hguard⟩
  · right
    rw [if_neg hguard]
    push_neg at hguard
    refine ⟨hguard.1, hguard.2, ?_⟩
    rcases hbx : bridgeXOf bridges (firstIfaceBridgeKey vm.interfaces) with _ | bx
    · left
      exact ⟨rfl, rfl⟩
    · right
      exact ⟨bx, rfl, rfl⟩

theorem stoppedCTStep_cases (bridges : List Bridge) (st : StopSt) (ct : Container) :
    (stoppedCTStep bridges st ct = st ∧ (ct.ctid ∈ st.placed ∨ ct.interfaces = [])) ∨
    (ct.ctid ∉ st.placed ∧ ct.interfaces ≠ [] ∧
      ((bridgeXOf bridges (firstIfaceBridgeKey ct.interfaces) = none ∧
        stoppedCTStep bridges st ct = ⟨ct.ctid :: st.placed, st.nodes, st.edges⟩) ∨
       (∃ bx, bridgeXOf bridges (firstIfaceBridgeKey ct.interfaces) = some bx ∧
        stoppedCTStep bridges st ct =
          ⟨ct.ctid :: st.placed,
           st.nodes ++ [stoppedCTNode ct bx (ct.ctid :: st.placed).length],
           st.edges ++ ct.interfaces.map (stoppedCTEdge ct)⟩))) := by
  unfold stoppedCTStep
  by_cases hguard : ct.ctid ∈ st.placed ∨ ct.interfaces = []
  · left
    rw [if_pos hguard]
    exact ⟨rfl, hguard⟩
  · right
    rw [if_neg hguard]
    push_neg at hguard
    refine ⟨hguard.1, hguard.2, ?_⟩
    rcases hbx : bridgeXOf bridges (firstIfaceBridgeKey ct.interfaces) with _ | bx
    · left
      exact ⟨rfl, rfl⟩
    · right
      exact ⟨bx, rfl, rfl⟩

theorem stoppedVMStep_nodes_mono {bridges : List Bridge} {st : StopSt} {vm : VM}
    {n : TNode} (h : n ∈ st.nodes) : n ∈ (stoppedVMStep bridges st vm).nodes := by
  rcases stoppedVMStep_cases bridges st vm with ⟨heq, h2⟩ |
    ⟨h1, h2, ⟨hbx, heq⟩ | ⟨bx, hbx, heq⟩⟩ <;> rw [heq]
  · exact h
  · exact h
  · exact List.mem_append.2 (Or.inl h)

theorem stoppedVMStep_edges_mono {bridges : List Bridge} {st : StopSt} {vm : VM}
    {e : TEdge} (h : e ∈ st.edges) : e ∈ (stoppedVMStep bridges st vm).edges := by
  rcases stoppedVMStep_cases bridges st vm with ⟨heq, h2⟩ |
    ⟨h1, h2, ⟨hbx, heq⟩ | ⟨bx, hbx, heq⟩⟩ <;> rw [heq]
  · exact h
  · exact h
  · exact List.mem_append.2 (Or.inl h)

theorem stoppedCTStep_nodes_mono {bridges : List Bridge} {st : StopSt} {ct : Container}
    {n : TNode} (h : n ∈ st.nodes) : n ∈ (stoppedCTStep bridges st ct).nodes := by
  rcases stoppedCTStep_cases bridges st ct with ⟨heq, h2⟩ |
    ⟨h1, h2, ⟨hbx, heq⟩ | ⟨bx, hbx, heq⟩⟩ <;> rw [heq]
  · exact h
  · exact h
  · exact List.mem_append.2 (Or.inl h)

theorem stoppedCTStep_edges_mono {bridges : List Bridge} {st : StopSt} {ct : Container}
    {e : TEdge} (h : e ∈ st.edges) : e ∈ (stoppedCTStep bridges st ct).edges := by
  rcases stoppedCTStep_cases bridges st ct with ⟨heq, h2⟩ |
    ⟨h1, h2, ⟨hbx, heq⟩ | ⟨bx, hbx, heq⟩⟩ <;> rw [heq]
  · exact h
  · exact h
  · exact List.mem_append.2 (Or.inl h)

theorem stoppedVMStep_placed_sub {bridges : List Bridge} {st : StopSt} {vm : VM}
    {v : Nat} (h : v ∈ (stoppedVMStep bridges st vm).placed) :
    v = vm.vmid ∨ v ∈ st.placed := by
  rcases stoppedVMStep_cases bridges st vm with ⟨heq, h2⟩ |
    ⟨h1, h2, ⟨hbx, heq⟩ | ⟨bx, hbx, heq⟩⟩ <;> rw [heq] at h
  · exact Or.inr h
  · exact List.mem_cons.1 h
  · exact List.mem_cons.1 h

theorem stoppedCTStep_placed_sub {bridges : List Bridge} {st : StopSt} {ct : Container}
    {c : Nat} (h : c ∈ (stoppedCTStep bridges st ct).placed) :
    c = ct.ctid ∨ c ∈ st.placed := by
  rcases stoppedCTStep_cases bridges st ct with ⟨heq, h2⟩ |
    ⟨h1, h2, ⟨hbx, heq⟩ | ⟨bx, hbx, heq⟩⟩ <;> rw [heq] at h
  · exact Or.inr h
  · exact List.mem_cons.1 h
  · exact List.mem_cons.1 h

theorem stoppedVMFold_nodes_mono (bridges : List Bridge) (l : List VM)
    (st : StopSt) {n : TNode} (h : n ∈ st.nodes) :
    n ∈ (l.foldl (stoppedVMStep bridges) st).nodes := by
  induction l generalizing st with
  | nil => exact h
  | cons w t ih =>
    rw [List.foldl_cons]
    exact ih _ (stoppedVMStep_nodes_mono h)

theorem stoppedVMFold_edges_mono (bridges : List Bridge) (l : List VM)
    (st : StopSt) {e : TEdge} (h : e ∈ st.edges) :
    e ∈ (l.foldl (stoppedVMStep bridges) st).edges := by
  induction l generalizing st with
  | nil => exact h
  | cons w t ih =>
    rw [List.foldl_cons]
    exact ih _ (stoppedVMStep_edges_mono h)

theorem stoppedCTFold_nodes_mono (bridges : List Bridge) (l : List Container)
    (st : StopSt) {n : TNode} (h : n ∈ st.nodes) :
    n ∈ (l.foldl (stoppedCTStep bridges) st).nodes := by
  induction l generalizing st with
  | nil => exact h
  | cons w t ih =>
    rw [List.foldl_cons]
    exact ih _ (stoppedCTStep_nodes_mono h)

theorem stoppedCTFold_edges_mono (bridges : List Bridge) (l : List Container)
    (st : StopSt) {e : TEdge} (h : e ∈ st.edges) :
    e ∈ (l.foldl (stoppedCTStep bridges) st).edges := by
  induction l generalizing st with
  | nil => exact h
  | cons w t ih =>
    rw [List.foldl_cons]
    exact ih _ (stoppedCTStep_edges_mono h)

/-- A never-placed guest with interfaces and whose first configured bridge
is cached gets its node and one stopped edge per interface from the
stopped-VM pass. -/
theorem stoppedVMFold_emits (bridges : List Bridge) (l : List VM) (st : StopSt)
    {vm : VM} {bx : Int}
    (hvm : vm ∈ l) (hnodup : (l.map VM.vmid).Nodup) (hnp : vm.vmid ∉ st.placed)
    (hif : vm.interfaces ≠ [])
    (hbx : bridgeXOf bridges (firstIfaceBridgeKey vm.interfaces) = some bx) :
    (∃ n ∈ (l.foldl (stoppedVMStep bridges) st).nodes,
      n.id = "vm-" ++ decStr vm.vmid ∧ n.nodeType = "vmNode") ∧
    ∀ iface ∈ vm.interfaces,
      stoppedVMEdge vm iface ∈ (l.foldl (stoppedVMStep bridges) st).edges := by
  induction l generalizing st with
  | nil => cases hvm
  | cons w t ih =>
    rw [List.foldl_cons]
    rcases List.mem_cons.1 hvm with hw | hw
    · subst hw
      have hstep : stoppedVMStep bridges st vm =
          ⟨vm.vmid :: st.placed,
           st.nodes ++ [stoppedVMNode vm bx (vm.vmid :: st.placed).length],
           st.edges ++ vm.interfaces.map (stoppedVMEdge vm)⟩ := by
        rcases stoppedVMStep_cases bridges st vm with ⟨heq, h2⟩ |
          ⟨h1, h2, ⟨hbx2, heq⟩ | ⟨bx2, hbx2, heq⟩⟩
        · rcases h2 with h2 | h2
          · exact absurd h2 hnp
          · exact absurd h2 hif
        · rw [hbx2] at hbx
          cases hbx
        · rw [hbx2] at hbx
          injection hbx with hbx
          subst hbx
          exact heq
      rw [hstep]
      constructor
      · refine ⟨stoppedVMNode vm bx (vm.vmid :: st.placed).length, ?_, rfl, rfl⟩
        refine stoppedVMFold_nodes_mono bridges t _ ?_
        exact List.mem_append.2 (Or.inr (List.mem_singleton.2 rfl))
      · intro iface hiface
        refine stoppedVMFold_edges_mono bridges t _ ?_
        exact List.mem_append.2 (Or.inr (List.mem_map.2 ⟨iface, hiface, rfl⟩))
    · have hvmid_ne : w.vmid ≠ vm.vmid := by
        rw [List.map_cons, List.nodup_cons] at hnodup
        intro hcontra
        exact hnodup.1 (hcontra ▸ List.mem_map.2 ⟨vm, hw, rfl⟩)
      have hnp2 : vm.vmid ∉ (stoppedVMStep bridges st w).placed := by
        intro hcontra
        rcases stoppedVMStep_placed_sub hcontra with hcontra | hcontra
        · exact hvmid_ne hcontra.symm
        · exact hnp hcontra
      have hnodup2 : (t.map VM.vmid).Nodup := by
        rw [List.map_cons, List.nodup_cons] at hnodup
        exact hnodup.2
      exact ih _ hw hnodup2 hnp2

/-- The container analogue of stoppedVMFold_emits. -/
theorem stoppedCTFold_emits (bridges : List Bridge) (l : List Container) (st : StopSt)
    {ct : Container} {bx : Int}
    (hct : ct ∈ l) (hnodup : (l.map Container.ctid).Nodup)
    (hnp : ct.ctid ∉ st.placed) (hif : ct.interfaces ≠ [])
    (hbx : bridgeXOf bridges (firstIfaceBridgeKey ct.interfaces) = some bx) :
    (∃ n ∈ (l.foldl (stoppedCTStep bridges) st).nodes,
      n.id = "ct-" ++ decStr ct.ctid ∧ n.nodeType = "containerNode") ∧
    ∀ iface ∈ ct.interfaces,
      stoppedCTEdge ct iface ∈ (l.foldl (stoppedCTStep bridges) st).edges := by
  induction l generalizing st with
  | nil => cases hct
  | cons w t ih =>
    rw [List.foldl_cons]
    rcases List.mem_cons.1 hct with hw | hw
    · subst hw
      have hstep : stoppedCTStep bridges st ct =
          ⟨ct.ctid :: st.placed,
           st.nodes ++ [stoppedCTNode ct bx (ct.ctid :: st.placed).length],
           st.edges ++ ct.interfaces.map (stoppedCTEdge ct)⟩ := by
        rcases stoppedCTStep_cases bridges st ct with ⟨heq, h2⟩ |
          ⟨h1, h2, ⟨hbx2, heq⟩ | ⟨bx2, hbx2, heq⟩⟩
        · rcases h2 with h2 | h2
          · exact absurd h2 hnp
          · exact absurd h2 hif
        · rw [hbx2] at hbx
          cases hbx
        · rw [hbx2] at hbx
          injection hbx with hbx
          subst hbx
          exact heq
      rw [hstep]
      constructor
      · refine ⟨stoppedCTNode ct bx (ct.ctid :: st.placed).length, ?_, rfl, rfl⟩
        refine stoppedCTFold_nodes_mono bridges t _ ?_
        exact List.mem_append.2 (Or.inr (List.mem_singleton.2 rfl))
      · intro iface hiface
        refine stoppedCTFold_edges_mono bridges t _ ?_
        exact List.mem_append.2 (Or.inr (List.mem_map.2 ⟨iface, hiface, rfl⟩))
    · have hctid_ne : w.ctid ≠ ct.ctid := by
        rw [List.map_cons, List.nodup_cons] at hnodup
        intro hcontra
        exact hnodup.1 (hcontra ▸ List.mem_map.2 ⟨ct, hw, rfl⟩)
      have hnp2 : ct.ctid ∉ (stoppedCTStep bridges st w).placed := by
        intro hcontra
        rcases stoppedCTStep_placed_sub hcontra with hcontra | hcontra
        · exact hctid_ne hcontra.symm
        · exact hnp hcontra
      have hnodup2 : (t.map Container.ctid).Nodup := by
        rw [List.map_cons, List.nodup_cons] at hnodup
        exact hnodup.2
      exact ih _ hw hnodup2 hnp2

/-- Every edge accumulated by the stopped-VM pass is a stopped edge (red
dashed stroke). -/
theorem stoppedVMFold_edge_stroke (bridges : List Bridge) (l : List VM) (st : StopSt)
    (hbase : ∀ e ∈ st.edges, e.stroke = "#f44336") :
    ∀ e ∈ (l.foldl (stoppedVMStep bridges) st).edges, e.stroke = "#f44336" := by
  induction l generalizing st with
  | nil => exact hbase
  | cons w t ih =>
    rw [List.foldl_cons]
    refine ih _ ?_
    intro e he
    rcases stoppedVMStep_cases bridges st w with ⟨heq, h2⟩ |
      ⟨h1, h2, ⟨hbx, heq⟩ | ⟨bx, hbx, heq⟩⟩ <;> rw [heq] at he
    · exact hbase e he
    · exact hbase e he
    · rcases List.mem_append.1 he with he | he
      · exact hbase e he
      · rcases List.mem_map.1 he with ⟨iface, hiface, rfl⟩
        rfl

theorem stoppedCTFold_edge_stroke (bridges : List Bridge) (l : List Container)
    (st : StopSt) (hbase : ∀ e ∈ st.edges, e.stroke = "#f44336") :
    ∀ e ∈ (l.foldl (stoppedCTStep bridges) st).edges, e.stroke = "#f44336" := by
  induction l generalizing st with
  | nil => exact hbase
  | cons w t ih =>
    rw [List.foldl_cons]
    refine ih _ ?_
    intro e he
    rcases stoppedCTStep_cases bridges st w with ⟨heq, h2⟩ |
      ⟨h1, h2, ⟨hbx, heq⟩ | ⟨bx, hbx, heq⟩⟩ <;> rw [heq] at he
    · exact hbase e he
    · exact hbase e he
    · rcases List.mem_append.1 he with he | he
      · exact hbase e he
      · rcases List.mem_map.1 he with ⟨iface, hiface, rfl⟩
        rfl

/-! ### Live and mirror edge lemmas -/

theorem liveEdgesOfPort_vm_mem {vms : List VM} {cts : List Container}
    {placedV placedC : List Nat} {b : Bridge} {port : Port} {vmid : Nat}
    (htap : tapVmid port.name = some vmid) (hvg : (vmGet vms vmid).isSome)
    (hpl : vmid ∈ placedV) :
    liveVMEdge b port.name vmid ∈ liveEdgesOfPort vms cts placedV placedC b port := by
  unfold liveEdgesOfPort
  rw [htap]
  dsimp only
  rw [if_pos ⟨hvg, hpl⟩]
  exact List.mem_append.2 (Or.inl (List.mem_singleton.2 rfl))

theorem liveEdgesOfPort_ct_mem {vms : List VM} {cts : List Container}
    {placedV placedC : List Nat} {b : Bridge} {port : Port} {ctid : Nat}
    (hveth : vethCtid port.name = some ctid) (hcg : (ctGet cts ctid).isSome)
    (hpl : ctid ∈ placedC) :
    liveCTEdge b port.name ctid ∈ liveEdgesOfPort vms cts placedV placedC b port := by
  unfold liveEdgesOfPort
  rw [hveth]
  dsimp only
  rw [if_pos ⟨hcg, hpl⟩]
  exact List.mem_append.2 (Or.inr (List.mem_singleton.2 rfl))

theorem liveEdgesOfPort_mem {vms : List VM} {cts : List Container}
    {placedV placedC : List Nat} {b : Bridge} {port : Port} {e : TEdge}
    (he : e ∈ liveEdgesOfPort vms cts placedV placedC b port) :
    (∃ vmid, tapVmid port.name = some vmid ∧ (vmGet vms vmid).isSome ∧
      vmid ∈ placedV ∧ e = liveVMEdge b port.name vmid) ∨
    (∃ ctid, vethCtid port.name = some ctid ∧ (ctGet cts ctid).isSome ∧
      ctid ∈ placedC ∧ e = liveCTEdge b port.name ctid) := by
  unfold liveEdgesOfPort at he
  rcases List.mem_append.1 he with he | he
  · left
    rcases htap : tapVmid port.name with _ | vmid
    · rw [htap] at he
      cases he
    · rw [htap] at he
      dsimp only at he
      by_cases hcond : (vmGet vms vmid).isSome ∧ vmid ∈ placedV
      · rw [if_pos hcond] at he
        rw [List.mem_singleton] at he
        exact ⟨vmid, rfl, hcond.1, hcond.2, he⟩
      · rw [if_neg hcond] at he
        cases he
  · right
    rcases hveth : vethCtid port.name with _ | ctid
    · rw [hveth] at he
      cases he
    · rw [hveth] at he
      dsimp only at he
      by_cases hcond : (ctGet cts ctid).isSome ∧ ctid ∈ placedC
      · rw [if_pos hcond] at he
        rw [List.mem_singleton] at he
        exact ⟨ctid, rfl, hcond.1, hcond.2, he⟩
      · rw [if_neg hcond] at he
        cases he

theorem mirrorEdgesOf_mem {placedV placedC : List Nat} {b : Bridge} {m : Mirror}
    {e : TEdge} (he : e ∈ mirrorEdgesOf placedV placedC b m) :
    ∃ op monId sp, outputPortOf m = some op ∧
      monitoringDeviceIdOf placedV placedC op = some monId ∧
      sp ∈ resolveMirrorSources placedV placedC b m monId ∧
      e = mkMirrorEdge m op monId sp := by
  unfold mirrorEdgesOf at he
  split at he
  · cases he
  · rename_i op hop
    split at he
    · cases he
    · rename_i monId hmon
      split at he
      · rcases List.mem_map.1 he with ⟨sp, hsp, rfl⟩
        exact ⟨op, monId, sp, hop, hmon, hsp, rfl⟩
      · cases he

theorem mkMirrorEdge_stroke (m : Mirror) (op monId : String) (sp : SourcePort) :
    (mkMirrorEdge m op monId sp).stroke = "#dc004e" := rfl

theorem monitoringDeviceIdOf_shape {placedV placedC : List Nat} {op monId : String}
    (h : monitoringDeviceIdOf placedV placedC op = some monId) :
    (∃ v ∈ placedV, monId = "vm-" ++ decStr v) ∨
    (∃ c ∈ placedC, monId = "ct-" ++ decStr c) := by
  unfold monitoringDeviceIdOf at h
  split at h
  · rename_i vmid htap
    split at h
    · injection h with h
      exact Or.inl ⟨vmid, by assumption, h.symm⟩
    · cases h
  · split at h
    · rename_i ctid hveth
      split at h
      · injection h with h
        exact Or.inr ⟨ctid, by assumption, h.symm⟩
      · cases h
    · cases h

theorem pushSourcePort_shape {placedV placedC : List Nat} {monId : String}
    {acc : List SourcePort} {pname : String} {sp : SourcePort}
    (h : sp ∈ pushSourcePort placedV placedC monId acc pname) :
    sp ∈ acc ∨ (∃ v ∈ placedV, sp.deviceId = "vm-" ++ decStr v ∧ sp.portName = pname) ∨
      (∃ c ∈ placedC, sp.deviceId = "ct-" ++ decStr c ∧ sp.portName = pname) := by
  unfold pushSourcePort at h
  split at h
  · rename_i vmid htap
    split at h
    · rename_i hg
      rcases List.mem_append.1 h with h | h
      · exact Or.inl h
      · rw [List.mem_singleton] at h
        subst h
        exact Or.inr (Or.inl ⟨vmid, hg.1, rfl, rfl⟩)
    · exact Or.inl h
  · split at h
    · rename_i ctid hveth
      split at h
      · rename_i hg
        rcases List.mem_append.1 h with h | h
        · exact Or.inl h
        · rw [List.mem_singleton] at h
          subst h
          exact Or.inr (Or.inr ⟨ctid, hg.1, rfl, rfl⟩)
      · exact Or.inl h
    · exact Or.inl h

theorem foldl_pushSourcePort_shape (placedV placedC : List Nat) (monId : String)
    (names : List String) (acc : List SourcePort)
    (hbase : ∀ sp ∈ acc,
      (∃ v ∈ placedV, sp.deviceId = "vm-" ++ decStr v) ∨
      (∃ c ∈ placedC, sp.deviceId = "ct-" ++ decStr c)) :
    ∀ sp ∈ names.foldl (pushSourcePort placedV placedC monId) acc,
      (∃ v ∈ placedV, sp.deviceId = "vm-" ++ decStr v) ∨
      (∃ c ∈ placedC, sp.deviceId = "ct-" ++ decStr c) := by
  induction names generalizing acc with
  | nil => exact hbase
  | cons a l ih =>
    rw [List.foldl_cons]
    refine ih _ ?_
    intro sp hsp
    rcases pushSourcePort_shape hsp with h | ⟨v, hv, hdev, hpn⟩ | ⟨c, hc, hdev, hpn⟩
    · exact hbase sp h
    · exact Or.inl ⟨v, hv, hdev⟩
    · exact Or.inr ⟨c, hc, hdev⟩

/-! ### Final pass lemmas -/

theorem applyPortStatus_id (entries : List (String × String)) (n : TNode) :
    (applyPortStatus entries n).id = n.id := by
  unfold applyPortStatus
  split <;> rfl

theorem applyPortStatus_nodeType (entries : List (String × String)) (n : TNode) :
    (applyPortStatus entries n).nodeType = n.nodeType := by
  unfold applyPortStatus
  split <;> rfl

theorem vmNodeCount_map_apply (entries : List (String × String)) (l : List TNode)
    (v : Nat) :
    vmNodeCount (l.map (applyPortStatus entries)) v = vmNodeCount l v := by
  unfold vmNodeCount
  rw [List.countP_map]
  refine List.countP_congr ?_
  intro x hx
  show ((applyPortStatus entries x).id == "vm-" ++ decStr v) = true ↔ _
  rw [applyPortStatus_id]

theorem ctNodeCount_map_apply (entries : List (String × String)) (l : List TNode)
    (c : Nat) :
    ctNodeCount (l.map (applyPortStatus entries)) c = ctNodeCount l c := by
  unfold ctNodeCount
  rw [List.countP_map]
  refine List.countP_congr ?_
  intro x hx
  show ((applyPortStatus entries x).id == "ct-" ++ decStr c) = true ↔ _
  rw [applyPortStatus_id]

/-! ### Structure of the builder output -/

theorem buildTopology_edges_eq (bridges : List Bridge) (vms : List VM)
    (cts : List Container) :
    (buildTopology bridges vms cts).2 =
      bridges.flatMap (bridgeEdges vms cts (phaseA bridges vms cts).placedVMs
        (phaseA bridges vms cts).placedCTs) ++
      (vms.foldl (stoppedVMStep bridges)
        ⟨(phaseA bridges vms cts).placedVMs, [], []⟩).edges ++
      (cts.foldl (stoppedCTStep bridges)
        ⟨(phaseA bridges vms cts).placedCTs, [], []⟩).edges := rfl

theorem buildTopology_nodes_eq (bridges : List Bridge) (vms : List VM)
    (cts : List Container) :
    (buildTopology bridges vms cts).1 =
      ((phaseA bridges vms cts).nodes ++
        (vms.foldl (stoppedVMStep bridges)
          ⟨(phaseA bridges vms cts).placedVMs, [], []⟩).nodes ++
        (cts.foldl (stoppedCTStep bridges)
          ⟨(phaseA bridges vms cts).placedCTs, [], []⟩).nodes).map
        (applyPortStatus (portStatusEntries bridges vms cts)) := rfl

/-- Any node of the pre-status node list yields a final node with the same
id and node type. -/
theorem node_in_final {bridges : List Bridge} {vms : List VM} {cts : List Container}
    {n : TNode}
    (hn : n ∈ (phaseA bridges vms cts).nodes ++
      (vms.foldl (stoppedVMStep bridges)
        ⟨(phaseA bridges vms cts).placedVMs, [], []⟩).nodes ++
      (cts.foldl (stoppedCTStep bridges)
        ⟨(phaseA bridges vms cts).placedCTs, [], []⟩).nodes) :
    ∃ n2 ∈ (buildTopology bridges vms cts).1, n2.id = n.id ∧
      n2.nodeType = n.nodeType := by
  rw [buildTopology_nodes_eq]
  exact ⟨applyPortStatus (portStatusEntries bridges vms cts) n,
    List.mem_map.2 ⟨n, hn, rfl⟩,
    applyPortStatus_id _ n, applyPortStatus_nodeType _ n⟩

/-! ### Stopped-phase node multiplicity -/

theorem stoppedVMStep_count (bridges : List Bridge) (st : StopSt) (vm : VM)
    (paNodes : List TNode) (v : Nat)
    (h : vmNodeCount paNodes v + vmNodeCount st.nodes v ≤
      if v ∈ st.placed then 1 else 0) :
    vmNodeCount paNodes v + vmNodeCount (stoppedVMStep bridges st vm).nodes v ≤
      if v ∈ (stoppedVMStep bridges st vm).placed then 1 else 0 := by
  rcases stoppedVMStep_cases bridges st vm with ⟨heq, h2⟩ |
    ⟨h1, h2, ⟨hbx, heq⟩ | ⟨bx, hbx, heq⟩⟩ <;> rw [heq]
  · exact h
  · dsimp only
    by_cases hv : v ∈ st.placed
    · rw [if_pos hv] at h
      rw [if_pos (List.mem_cons_of_mem _ hv)]
      exact h
    · rw [if_neg hv] at h
      exact le_trans h (Nat.zero_le _)
  · dsimp only
    rw [vmNodeCount_append,
      vmNodeCount_single_vm (show (stoppedVMNode vm bx (vm.vmid :: st.placed).length).id =
        "vm-" ++ decStr vm.vmid from rfl) v]
    by_cases hv : vm.vmid = v
    · subst hv
      rw [if_neg h1] at h
      rw [if_pos (List.mem_cons_self _ _), if_pos rfl]
      omega
    · rw [if_neg hv]
      by_cases hvp : v ∈ st.placed
      · rw [if_pos hvp] at h
        rw [if_pos (List.mem_cons_of_mem _ hvp)]
        omega
      · rw [if_neg hvp] at h
        rw [if_neg]
        · omega
        · intro hcontra
          rcases List.mem_cons.1 hcontra with hcontra | hcontra
          · exact hv hcontra.symm
          · exact hvp hcontra

theorem stoppedCTStep_count (bridges : List Bridge) (st : StopSt) (ct : Container)
    (paNodes : List TNode) (c : Nat)
    (h : ctNodeCount paNodes c + ctNodeCount st.nodes c ≤
      if c ∈ st.placed then 1 else 0) :
    ctNodeCount paNodes c + ctNodeCount (stoppedCTStep bridges st ct).nodes c ≤
      if c ∈ (stoppedCTStep bridges st ct).placed then 1 else 0 := by
  rcases stoppedCTStep_cases bridges st ct with ⟨heq, h2⟩ |
    ⟨h1, h2, ⟨hbx, heq⟩ | ⟨bx, hbx, heq⟩⟩ <;> rw [heq]
  · exact h
  · dsimp only
    by_cases hc : c ∈ st.placed
    · rw [if_pos hc] at h
      rw [if_pos (List.mem_cons_of_mem _ hc)]
      exact h
    · rw [if_neg hc] at h
      exact le_trans h (Nat.zero_le _)
  · dsimp only
    rw [ctNodeCount_append,
      ctNodeCount_single_ct (show (stoppedCTNode ct bx (ct.ctid :: st.placed).length).id =
        "ct-" ++ decStr ct.ctid from rfl) c]
    by_cases hc : ct.ctid = c
    · subst hc
      rw [if_neg h1] at h
      rw [if_pos (List.mem_cons_self _ _), if_pos rfl]
      omega
    · rw [if_neg hc]
      by_cases hcp : c ∈ st.placed
      · rw [if_pos hcp] at h
        rw [if_pos (List.mem_cons_of_mem _ hcp)]
        omega
      · rw [if_neg hcp] at h
        rw [if_neg]
        · omega
        · intro hcontra
          rcases List.mem_cons.1 hcontra with hcontra | hcontra
          · exact hc hcontra.symm
          · exact hcp hcontra

theorem stoppedVMFold_count (bridges : List Bridge) (l : List VM) (st : StopSt)
    (paNodes : List TNode) (v : Nat)
    (h : vmNodeCount paNodes v + vmNodeCount st.nodes v ≤
      if v ∈ st.placed then 1 else 0) :
    vmNodeCount paNodes v +
      vmNodeCount (l.foldl (stoppedVMStep bridges) st).nodes v ≤ 1 := by
  induction l generalizing st with
  | nil =>
    refine le_trans h ?_
    split <;> omega
  | cons w t ih =>
    rw [List.foldl_cons]
    exact ih _ (stoppedVMStep_count bridges st w paNodes v h)

theorem stoppedCTFold_count (bridges : List Bridge) (l : List Container) (st : StopSt)
    (paNodes : List TNode) (c : Nat)
    (h : ctNodeCount paNodes c + ctNodeCount st.nodes c ≤
      if c ∈ st.placed then 1 else 0) :
    ctNodeCount paNodes c +
      ctNodeCount (l.foldl (stoppedCTStep bridges) st).nodes c ≤ 1 := by
  induction l generalizing st with
  | nil =>
    refine le_trans h ?_
    split <;> omega
  | cons w t ih =>
    rw [List.foldl_cons]
    exact ih _ (stoppedCTStep_count bridges st w paNodes c h)

theorem stoppedCTFold_vmCount_zero (bridges : List Bridge) (l : List Container)
    (st : StopSt) (v : Nat) (h : vmNodeCount st.nodes v = 0) :
    vmNodeCount (l.foldl (stoppedCTStep bridges) st).nodes v = 0 := by
  induction l generalizing st with
  | nil => exact h
  | cons w t ih =>
    rw [List.foldl_cons]
    refine ih _ ?_
    rcases stoppedCTStep_cases bridges st w with ⟨heq, h2⟩ |
      ⟨h1, h2, ⟨hbx, heq⟩ | ⟨bx, hbx, heq⟩⟩ <;> rw [heq]
    · exact h
    · exact h
    · dsimp only
      rw [vmNodeCount_append,
        vmNodeCount_single_ct (show (stoppedCTNode w bx (w.ctid :: st.placed).length).id =
          "ct-" ++ decStr w.ctid from rfl) v, h]

theorem stoppedVMFold_ctCount_zero (bridges : List Bridge) (l : List VM)
    (st : StopSt) (c : Nat) (h : ctNodeCount st.nodes c = 0) :
    ctNodeCount (l.foldl (stoppedVMStep bridges) st).nodes c = 0 := by
  induction l generalizing st with
  | nil => exact h
  | cons w t ih =>
    rw [List.foldl_cons]
    refine ih _ ?_
    rcases stoppedVMStep_cases bridges st w with ⟨heq, h2⟩ |
      ⟨h1, h2, ⟨hbx, heq⟩ | ⟨bx, hbx, heq⟩⟩ <;> rw [heq]
    · exact h
    · exact h
    · dsimp only
      rw [ctNodeCount_append,
        ctNodeCount_single_vm (show (stoppedVMNode w bx (w.vmid :: st.placed).length).id =
          "vm-" ++ decStr w.vmid from rfl) c, h]

/-! ### Shared helpers for claim statements -/

theorem vm_node_in_build {bridges : List Bridge} {vms : List VM} {cts : List Container}
    {v : Nat} (hpl : v ∈ (phaseA bridges vms cts).placedVMs) :
    ∃ n ∈ (buildTopology bridges vms cts).1,
      n.id = "vm-" ++ decStr v ∧ n.nodeType = "vmNode" := by
  obtain ⟨n, hn, hid, hty⟩ := (phaseA_inv bridges vms cts).2.2.1 v hpl
  obtain ⟨n2, hn2, hid2, hty2⟩ := node_in_final
    (List.mem_append.2 (Or.inl (List.mem_append.2 (Or.inl hn))))
  exact ⟨n2, hn2, hid2.trans hid, hty2.trans hty⟩

theorem ct_node_in_build {bridges : List Bridge} {vms : List VM} {cts : List Container}
    {c : Nat} (hpl : c ∈ (phaseA bridges vms cts).placedCTs) :
    ∃ n ∈ (buildTopology bridges vms cts).1,
      n.id = "ct-" ++ decStr c ∧ n.nodeType = "containerNode" := by
  obtain ⟨n, hn, hid, hty⟩ := (phaseA_inv bridges vms cts).2.2.2.1 c hpl
  obtain ⟨n2, hn2, hid2, hty2⟩ := node_in_final
    (List.mem_append.2 (Or.inl (List.mem_append.2 (Or.inl hn))))
  exact ⟨n2, hn2, hid2.trans hid, hty2.trans hty⟩

theorem live_vm_edge_in_build {bridges : List Bridge} {vms : List VM}
    {cts : List Container} {b : Bridge} {p : Port} {vmid : Nat}
    (hb : b ∈ bridges) (hp : p ∈ b.ports) (htap : tapVmid p.name = some vmid)
    (hvg : (vmGet vms vmid).isSome) :
    liveVMEdge b p.name vmid ∈ (buildTopology bridges vms cts).2 := by
  have hpl := phaseA_trigger_vm bridges vms cts hb hp htap hvg
  rw [buildTopology_edges_eq]
  refine List.mem_append.2 (Or.inl (List.mem_append.2 (Or.inl ?_)))
  refine List.mem_flatMap.2 ⟨b, hb, ?_⟩
  unfold bridgeEdges
  refine List.mem_append.2 (Or.inl ?_)
  refine List.mem_flatMap.2 ⟨p, hp, ?_⟩
  exact liveEdgesOfPort_vm_mem htap hvg hpl

theorem live_ct_edge_in_build {bridges : List Bridge} {vms : List VM}
    {cts : List Container} {b : Bridge} {p : Port} {ctid : Nat}
    (hb : b ∈ bridges) (hp : p ∈ b.ports) (hveth : vethCtid p.name = some ctid)
    (hcg : (ctGet cts ctid).isSome) :
    liveCTEdge b p.name ctid ∈ (buildTopology bridges vms cts).2 := by
  have hpl := phaseA_trigger_ct bridges vms cts hb hp hveth hcg
  rw [buildTopology_edges_eq]
  refine List.mem_append.2 (Or.inl (List.mem_append.2 (Or.inl ?_)))
  refine List.mem_flatMap.2 ⟨b, hb, ?_⟩
  unfold bridgeEdges
  refine List.mem_append.2 (Or.inl ?_)
  refine List.mem_flatMap.2 ⟨p, hp, ?_⟩
  exact liveEdgesOfPort_ct_mem hveth hcg hpl

/-- Counterexample to C3 as stated: guest 5 has interfaces configured on
three different bridges, yet the topology holds exactly one edge touching
vm-5 (the live one), not three — once a guest is placed from a live port,
its absent-port interfaces yield no edges. -/
theorem c3_counterexample :
    c3xvm.interfaces.length = 3 ∧
    (c3xvm.interfaces.map (fun i => i.bridge)).Nodup ∧
    vmNodeCount (buildTopology c3xbridges [c3xvm] []).1 5 = 1 ∧
    ((buildTopology c3xbridges [c3xvm] []).2.countP
      (fun e => e.source == "vm-" ++ decStr 5)) = 1 ∧
    ¬ ((buildTopology c3xbridges [c3xvm] []).2.countP
      (fun e => e.source == "vm-" ++ decStr 5)) = 3 := by
  refine ⟨rfl, by decide, by decide, by decide, by decide⟩

/-- Claim C3 as amended: a guest is never emitted more than once — for
every input the node list holds at most one node per guest id — and a
guest with interfaces on three different bridges whose ports are all live
appears as exactly one node with three edges; when some of its ports are
absent, only the live-port edges appear (see the counterexample). -/
theorem c3_guest_node_uniqueness :
    (∀ (bridges : List Bridge) (vms : List VM) (cts : List Container) (v : Nat),
      vmNodeCount (buildTopology bridges vms cts).1 v ≤ 1) ∧
    (∀ (bridges : List Bridge) (vms : List VM) (cts : List Container) (c : Nat),
      ctNodeCount (buildTopology bridges vms cts).1 c ≤ 1) ∧
    (vmNodeCount (buildTopology c3bridges [c3vm] []).1 7 = 1 ∧
      ((buildTopology c3bridges [c3vm] []).2.countP
        (fun e => e.source == "vm-" ++ decStr 7)) = 3) := by
  refine ⟨?_, ?_, by decide, by decide⟩
  · intro bridges vms cts v
    rw [buildTopology_nodes_eq, vmNodeCount_map_apply, vmNodeCount_append,
      vmNodeCount_append]
    have hsc : vmNodeCount (cts.foldl (stoppedCTStep bridges)
        ⟨(phaseA bridges vms cts).placedCTs, [], []⟩).nodes v = 0 :=
      stoppedCTFold_vmCount_zero bridges cts _ v rfl
    have hsv : vmNodeCount (phaseA bridges vms cts).nodes v +
        vmNodeCount (vms.foldl (stoppedVMStep bridges)
          ⟨(phaseA bridges vms cts).placedVMs, [], []⟩).nodes v ≤ 1 := by
      refine stoppedVMFold_count bridges vms _ _ v ?_
      have h1 := (phaseA_inv bridges vms cts).1 v
      rw [h1]
      dsimp only
      rw [show vmNodeCount ([] : List TNode) v = 0 from rfl]
      omega
    omega
  · intro bridges vms cts c
    rw [buildTopology_nodes_eq, ctNodeCount_map_apply, ctNodeCount_append,
      ctNodeCount_append]
    have hsv : ctNodeCount (vms.foldl (stoppedVMStep bridges)
        ⟨(phaseA bridges vms cts).placedVMs, [], []⟩).nodes c = 0 :=
      stoppedVMFold_ctCount_zero bridges vms _ c rfl
    have hsc : ctNodeCount (phaseA bridges vms cts).nodes c +
        ctNodeCount (cts.foldl (stoppedCTStep bridges)
          ⟨(phaseA bridges vms cts).placedCTs, [], []⟩).nodes c ≤ 1 := by
      refine stoppedCTFold_count bridges cts _ _ c ?_
      have h1 := (phaseA_inv bridges vms cts).2.1 c
      rw [h1]
      dsimp only
      rw [show ctNodeCount ([] : List TNode) c = 0 from rfl]
      omega
    omega

/-! ### Claim C10 -/

/-- Claim C10: every mirror-connection edge of the built topology has both
endpoints naming device nodes (VM or container) that are present in the
same build's node list. -/
theorem c10_mirror_edge_endpoints (bridges : List Bridge) (vms : List VM)
    (cts : List Container) :
    ∀ e ∈ (buildTopology bridges vms cts).2, e.stroke = "#dc004e" →
      (∃ n ∈ (buildTopology bridges vms cts).1, n.id = e.source ∧
        (n.nodeType = "vmNode" ∨ n.nodeType = "containerNode")) ∧
      (∃ n ∈ (buildTopology bridges vms cts).1, n.id = e.target ∧
        (n.nodeType = "vmNode" ∨ n.nodeType = "containerNode")) := by
  intro e he hstroke
  rw [buildTopology_edges_eq] at he
  rcases List.mem_append.1 he with he | he
  swap
  · have h2 := stoppedCTFold_edge_stroke bridges cts _ (by intro e2 he2; cases he2) e he
    rw [h2] at hstroke
    exact absurd hstroke (by decide)
  rcases List.mem_append.1 he with he | he
  swap
  · have h2 := stoppedVMFold_edge_stroke bridges vms _ (by intro e2 he2; cases he2) e he
    rw [h2] at hstroke
    exact absurd hstroke (by decide)
  rcases List.mem_flatMap.1 he with ⟨b, hb, he⟩
  unfold bridgeEdges at he
  rcases List.mem_append.1 he with he | he
  · rcases List.mem_flatMap.1 he with ⟨p, hp, he⟩
    rcases liveEdgesOfPort_mem he with ⟨vmid, _, _, _, rfl⟩ | ⟨ctid, _, _, _, rfl⟩
    · rw [show (liveVMEdge b p.name vmid).stroke = "#4caf50" from rfl] at hstroke
      exact absurd hstroke (by decide)
    · rw [show (liveCTEdge b p.name ctid).stroke = "#ff9800" from rfl] at hstroke
      exact absurd hstroke (by decide)
  · rcases List.mem_flatMap.1 he with ⟨m, hm, he⟩
    obtain ⟨op, monId, sp, hop, hmon, hsp, rfl⟩ := mirrorEdgesOf_mem he
    constructor
    · show ∃ n ∈ _, n.id = sp.deviceId ∧ _
      rcases foldl_pushSourcePort_shape _ _ monId _ [] (by intro sp2 hsp2; cases hsp2)
        sp hsp with ⟨v, hv, hdev⟩ | ⟨c, hc, hdev⟩
      · obtain ⟨n, hn, hid, hty⟩ := vm_node_in_build hv
        exact ⟨n, hn, by rw [hid, hdev], Or.inl hty⟩
      · obtain ⟨n, hn, hid, hty⟩ := ct_node_in_build hc
        exact ⟨n, hn, by rw [hid, hdev], Or.inr hty⟩
    · show ∃ n ∈ _, n.id = monId ∧ _
      rcases monitoringDeviceIdOf_shape hmon with ⟨v, hv, hdev⟩ | ⟨c, hc, hdev⟩
      · obtain ⟨n, hn, hid, hty⟩ := vm_node_in_build hv
        exact ⟨n, hn, by rw [hid, hdev], Or.inl hty⟩
      · obtain ⟨n, hn, hid, hty⟩ := ct_node_in_build hc
        exact ⟨n, hn, by rw [hid, hdev], Or.inr hty⟩

/-- Witness for C10 on the select-all mirror scenario of section 8. -/
theorem c10_witness :
    (∃ n ∈ (buildTopology c10bridges [c10vm 101, c10vm 102, c10vm 103] []).1,
      n.id = c10edge.source ∧
        (n.nodeType = "vmNode" ∨ n.nodeType = "containerNode")) ∧
    (∃ n ∈ (buildTopology c10bridges [c10vm 101, c10vm 102, c10vm 103] []).1,
      n.id = c10edge.target ∧
        (n.nodeType = "vmNode" ∨ n.nodeType = "containerNode")) :=
  c10_mirror_edge_endpoints c10bridges [c10vm 101, c10vm 102, c10vm 103] []
    c10edge (by decide) (by decide)

/-- Counterexample to C2 as stated: port tap102i0 is live on the bridge
while VM 102's power-state field says stopped (and it has no matching
interface record), yet the builder emits a green live-connection edge for
the port — the emission is keyed on inventory presence alone, not on a
running power state nor on the section 4.2 interface double-check. -/
theorem c2_counterexample :
    c2vm.status = "stopped" ∧
    (∃ e ∈ (buildTopology [c2bridge] [c2vm] []).2,
      e.id = "edge-tap102i0" ∧ e.stroke = "#4caf50" ∧
      e.source = "vm-" ++ decStr 102 ∧ e.target = "bridge-ovsbr0") := by
  exact ⟨rfl, by decide⟩

/-- Claim C2 as amended: for every port on a cached bridge the builder
parses the name with the tap/veth regex and looks the numeric id up in the
guest inventory (no interface double-check, no power-state check); a guest
node and a live-connection edge keyed by the port name are emitted exactly
when the parsed id is in the inventory, whatever the guest's status; and
every live edge in the output arises this way from some bridge port. -/
theorem c2_port_correlation (bridges : List Bridge) (vms : List VM)
    (cts : List Container) :
    (∀ b ∈ bridges, ∀ p ∈ b.ports, ∀ vmid, tapVmid p.name = some vmid →
      (vmGet vms vmid).isSome →
      (∃ n ∈ (buildTopology bridges vms cts).1,
        n.id = "vm-" ++ decStr vmid ∧ n.nodeType = "vmNode") ∧
      liveVMEdge b p.name vmid ∈ (buildTopology bridges vms cts).2) ∧
    (∀ b ∈ bridges, ∀ p ∈ b.ports, ∀ ctid, vethCtid p.name = some ctid →
      (ctGet cts ctid).isSome →
      (∃ n ∈ (buildTopology bridges vms cts).1,
        n.id = "ct-" ++ decStr ctid ∧ n.nodeType = "containerNode") ∧
      liveCTEdge b p.name ctid ∈ (buildTopology bridges vms cts).2) ∧
    (∀ e ∈ (buildTopology bridges vms cts).2, e.stroke = "#4caf50" →
      ∃ b ∈ bridges, ∃ p ∈ b.ports, ∃ vmid, tapVmid p.name = some vmid ∧
        (vmGet vms vmid).isSome ∧ e = liveVMEdge b p.name vmid) ∧
    (∀ e ∈ (buildTopology bridges vms cts).2, e.stroke = "#ff9800" →
      ∃ b ∈ bridges, ∃ p ∈ b.ports, ∃ ctid, vethCtid p.name = some ctid ∧
        (ctGet cts ctid).isSome ∧ e = liveCTEdge b p.name ctid) := by
  refine ⟨?_, ?_, ?_, ?_⟩
  · intro b hb p hp vmid htap hvg
    exact ⟨vm_node_in_build (phaseA_trigger_vm bridges vms cts hb hp htap hvg),
      live_vm_edge_in_build hb hp htap hvg⟩
  · intro b hb p hp ctid hveth hcg
    exact ⟨ct_node_in_build (phaseA_trigger_ct bridges vms cts hb hp hveth hcg),
      live_ct_edge_in_build hb hp hveth hcg⟩
  · intro e he hstroke
    rw [buildTopology_edges_eq] at he
    rcases List.mem_append.1 he with he | he
    swap
    · have h2 := stoppedCTFold_edge_stroke bridges cts _ (by intro e2 he2; cases he2) e he
      rw [h2] at hstroke
      exact absurd hstroke (by decide)
    rcases List.mem_append.1 he with he | he
    swap
    · have h2 := stoppedVMFold_edge_stroke bridges vms _ (by intro e2 he2; cases he2) e he
      rw [h2] at hstroke
      exact absurd hstroke (by decide)
    rcases List.mem_flatMap.1 he with ⟨b, hb, he⟩
    unfold bridgeEdges at he
    rcases List.mem_append.1 he with he | he
    · rcases List.mem_flatMap.1 he with ⟨p, hp, he⟩
      rcases liveEdgesOfPort_mem he with ⟨vmid, htap, hvg, hpl, rfl⟩ |
        ⟨ctid, hveth, hcg, hpl, rfl⟩
      · exact ⟨b, hb, p, hp, vmid, htap, hvg, rfl⟩
      · rw [show (liveCTEdge b p.name ctid).stroke = "#ff9800" from rfl] at hstroke
        exact absurd hstroke (by decide)
    · rcases List.mem_flatMap.1 he with ⟨m, hm, he⟩
      obtain ⟨op, monId, sp, hop, hmon, hsp, rfl⟩ := mirrorEdgesOf_mem he
      rw [show (mkMirrorEdge m op monId sp).stroke = "#dc004e" from rfl] at hstroke
      exact absurd hstroke (by decide)
  · intro e he hstroke
    rw [buildTopology_edges_eq] at he
    rcases List.mem_append.1 he with he | he
    swap
    · have h2 := stoppedCTFold_edge_stroke bridges cts _ (by intro e2 he2; cases he2) e he
      rw [h2] at hstroke
      exact absurd hstroke (by decide)
    rcases List.mem_append.1 he with he | he
    swap
    · have h2 := stoppedVMFold_edge_stroke bridges vms _ (by intro e2 he2; cases he2) e he
      rw [h2] at hstroke
      exact absurd hstroke (by decide)
    rcases List.mem_flatMap.1 he with ⟨b, hb, he⟩
    unfold bridgeEdges at he
    rcases List.mem_append.1 he with he | he
    · rcases List.mem_flatMap.1 he with ⟨p, hp, he⟩
      rcases liveEdgesOfPort_mem he with ⟨vmid, htap, hvg, hpl, rfl⟩ |
        ⟨ctid, hveth, hcg, hpl, rfl⟩
      · rw [show (liveVMEdge b p.name vmid).stroke = "#4caf50" from rfl] at hstroke
        exact absurd hstroke (by decide)
      · exact ⟨b, hb, p, hp, ctid, hveth, hcg, rfl⟩
    · rcases List.mem_flatMap.1 he with ⟨m, hm, he⟩
      obtain ⟨op, monId, sp, hop, hmon, hsp, rfl⟩ := mirrorEdgesOf_mem he
      rw [show (mkMirrorEdge m op monId sp).stroke = "#dc004e" from rfl] at hstroke
      exact absurd hstroke (by decide)

/-- Witness for the amended C2 at the counterexample scenario: the stopped
guest's live port still yields the node vm-102 and the green edge. -/
theorem c2_witness :
    (∃ n ∈ (buildTopology [c2bridge] [c2vm] []).1,
      n.id = "vm-" ++ decStr 102 ∧ n.nodeType = "vmNode") ∧
    liveVMEdge c2bridge "tap102i0" 102 ∈ (buildTopology [c2bridge] [c2vm] []).2 := by
  have h := (c2_port_correlation [c2bridge] [c2vm] []).1 c2bridge (by decide)
    c2port (by decide) 102 (by decide) (by decide)
  exact ⟨h.1, h.2⟩

/-- Counterexample to C1 as stated: VM 101's interface net1 is configured
for the cached bridge ovsbr1 and its expected port tap101i1 is absent from
that bridge's ports, so C1 demands a stopped-connection edge
vm-101 to bridge-ovsbr1; but because the guest was already placed from its
live port on ovsbr0, the builder skips the stopped pass for it entirely
and the output contains no edge whatsoever toward bridge-ovsbr1. -/
theorem c1_counterexample :
    (c1vm.interfaces.any (fun iface => iface.bridge == some "ovsbr1" &&
      !((mkBridge "b1" "ovsbr1" [] []).ports.any (fun p2 => p2.name == iface.tap)))) = true ∧
    vmNodeCount (buildTopology c1bridges [c1vm] []).1 101 = 1 ∧
    ((buildTopology c1bridges [c1vm] []).2.countP
      (fun e => e.target == "bridge-ovsbr1")) = 0 := by
  refine ⟨by decide, by decide, by decide⟩

/-- Claim C1 as amended: the stopped pass runs only for guests placed by
no live port at all (on any bridge); such a guest, when its interface list
is nonempty and its FIRST interface's configured bridge is cached, is
emitted once together with one stopped-connection edge per configured
interface — irrespective of the guest's power-state field, which the pass
never reads.  A guest already placed from a live port receives no stopped
edges for its other interfaces, and a guest whose first interface names an
uncached bridge is dropped (see the counterexample). -/
theorem c1_stopped_guest_edges (bridges : List Bridge) (vms : List VM)
    (cts : List Container) :
    (∀ vm ∈ vms, (vms.map VM.vmid).Nodup →
      vm.vmid ∉ (phaseA bridges vms cts).placedVMs →
      vm.interfaces ≠ [] →
      ∀ bx, bridgeXOf bridges (firstIfaceBridgeKey vm.interfaces) = some bx →
      (∃ n ∈ (buildTopology bridges vms cts).1,
        n.id = "vm-" ++ decStr vm.vmid ∧ n.nodeType = "vmNode") ∧
      ∀ iface ∈ vm.interfaces,
        stoppedVMEdge vm iface ∈ (buildTopology bridges vms cts).2) ∧
    (∀ ct ∈ cts, (cts.map Container.ctid).Nodup →
      ct.ctid ∉ (phaseA bridges vms cts).placedCTs →
      ct.interfaces ≠ [] →
      ∀ bx, bridgeXOf bridges (firstIfaceBridgeKey ct.interfaces) = some bx →
      (∃ n ∈ (buildTopology bridges vms cts).1,
        n.id = "ct-" ++ decStr ct.ctid ∧ n.nodeType = "containerNode") ∧
      ∀ iface ∈ ct.interfaces,
        stoppedCTEdge ct iface ∈ (buildTopology bridges vms cts).2) := by
  constructor
  · intro vm hvm hnodup hnp hif bx hbx
    have h := stoppedVMFold_emits bridges vms
      ⟨(phaseA bridges vms cts).placedVMs, [], []⟩ hvm hnodup hnp hif hbx
    constructor
    · obtain ⟨n, hn, hid, hty⟩ := h.1
      obtain ⟨n2, hn2, hid2, hty2⟩ := node_in_final
        (List.mem_append.2 (Or.inl (List.mem_append.2 (Or.inr hn))))
      exact ⟨n2, hn2, hid2.trans hid, hty2.trans hty⟩
    · intro iface hiface
      rw [buildTopology_edges_eq]
      exact List.mem_append.2 (Or.inl (List.mem_append.2 (Or.inr (h.2 iface hiface))))
  · intro ct hct hnodup hnp hif bx hbx
    have h := stoppedCTFold_emits bridges cts
      ⟨(phaseA bridges vms cts).placedCTs, [], []⟩ hct hnodup hnp hif hbx
    constructor
    · obtain ⟨n, hn, hid, hty⟩ := h.1
      obtain ⟨n2, hn2, hid2, hty2⟩ := node_in_final
        (List.mem_append.2 (Or.inr hn))
      exact ⟨n2, hn2, hid2.trans hid, hty2.trans hty⟩
    · intro iface hiface
      rw [buildTopology_edges_eq]
      exact List.mem_append.2 (Or.inr (h.2 iface hiface))

/-- Witness for the amended C1 on the section 8 scenario: stopped VM 102
(configured for ovsbr0, port absent) gets its node and its red stopped
edge to bridge-ovsbr0. -/
theorem c1_witness :
    (∃ n ∈ (buildTopology c1wbridges [c1wvm101, c1wvm102] []).1,
      n.id = "vm-" ++ decStr 102 ∧ n.nodeType = "vmNode") ∧
    stoppedVMEdge c1wvm102 (mkIface "net0" "tap102i0" "ovsbr0") ∈
      (buildTopology c1wbridges [c1wvm101, c1wvm102] []).2 := by
  have h := (c1_stopped_guest_edges c1wbridges [c1wvm101, c1wvm102] []).1
    c1wvm102 (by decide) (by decide) (by decide) (by decide) 200 (by decide)
  exact ⟨h.1, h.2 _ (by decide)⟩

theorem foldl_mem_preserved {α γ : Type} (g : List α → γ → List α)
    (hg : ∀ acc x a, a ∈ acc → a ∈ g acc x) :
    ∀ (l : List γ) (acc : List α) (a : α), a ∈ acc → a ∈ l.foldl g acc := by
  intro l
  induction l with
  | nil =>
    intro acc a ha
    exact ha
  | cons x t ih =>
    intro acc a ha
    rw [List.foldl_cons]
    exact ih _ a (hg acc x a ha)

theorem portsListOf_base_mem (vms : List VM) (cts : List Container) (b : Bridge)
    (p : Port) (hp : p ∈ b.ports) :
    ({ name := p.name, uuid := p.uuid, status := none } : PortCell) ∈
      portsListOf vms cts b := by
  unfold portsListOf
  refine foldl_mem_preserved _ ?_ cts _ _ ?_
  · intro acc ct a ha
    dsimp only
    split
    · refine foldl_mem_preserved _ ?_ ct.interfaces acc a ha
      intro acc2 iface a2 ha2
      dsimp only
      split
      · split
        · exact ha2
        · exact List.mem_append.2 (Or.inl ha2)
      · exact ha2
    · exact ha
  · refine foldl_mem_preserved _ ?_ vms _ _ ?_
    · intro acc vm a ha
      dsimp only
      split
      · refine foldl_mem_preserved _ ?_ vm.interfaces acc a ha
        intro acc2 iface a2 ha2
        dsimp only
        split
        · split
          · exact ha2
          · exact List.mem_append.2 (Or.inl ha2)
        · exact ha2
      · exact ha
    · exact List.mem_map.2 ⟨p, hp, rfl⟩

/-- Counterexample to C8 as stated: a port whose interfaces list is empty
is NOT treated as absent — it still contributes a port entry to the bridge
node's data, it still correlates, and it still yields a live edge, exactly
as a normal port would. -/
theorem c8_counterexample :
    c8port.interfaces = [] ∧
    (∃ e ∈ (buildTopology [c8bridge] [c8vm] []).2, e.id = "edge-tap101i0") ∧
    (∃ n ∈ (buildTopology [c8bridge] [c8vm] []).1,
      (portCellsOf n).any (fun pc => pc.name == "tap101i0")) := by
  refine ⟨rfl, by decide, by decide⟩

/-- Claim C8 as amended: consumers do not filter ports on their interface
count.  The bridge visualization renders one row per port (zero-interface
ports included, the interfaces line merely being omitted), and the
topology builder gives a zero-interface port its port entry and its live
edge exactly like any other port. -/
theorem c8_zero_interface_ports :
    (∀ (vms : List VM) (b : Bridge), (portRowsOf vms b).length = b.ports.length ∧
      ∀ p ∈ b.ports,
        (p.name, findVMForPort p.name vms, decide (0 < p.interfaces.length)) ∈
          portRowsOf vms b) ∧
    (∀ (bridges : List Bridge) (vms : List VM) (cts : List Container)
      (b : Bridge) (p : Port) (vmid : Nat),
      b ∈ bridges → p ∈ b.ports → p.interfaces = [] →
      tapVmid p.name = some vmid → (vmGet vms vmid).isSome →
      liveVMEdge b p.name vmid ∈ (buildTopology bridges vms cts).2 ∧
      ({ name := p.name, uuid := p.uuid, status := none } : PortCell) ∈
        portsListOf vms cts b) := by
  constructor
  · intro vms b
    exact ⟨List.length_map _ _, fun p hp => List.mem_map.2 ⟨p, hp, rfl⟩⟩
  · intro bridges vms cts b p vmid hb hp hni htap hvg
    exact ⟨live_vm_edge_in_build hb hp htap hvg, portsListOf_base_mem vms cts b p hp⟩

/-- Witness for the amended C8: the zero-interface port tap101i0 yields
its live edge, appears in the bridge's port list, and is rendered as a row
by the visualization. -/
theorem c8_witness :
    liveVMEdge c8bridge "tap101i0" 101 ∈ (buildTopology [c8bridge] [c8vm] []).2 ∧
    ({ name := "tap101i0", uuid := "p1", status := none } : PortCell) ∈
      portsListOf [c8vm] [] c8bridge ∧
    (portRowsOf [c8vm] c8bridge).length = 1 := by
  have h := c8_zero_interface_ports.2 [c8bridge] [c8vm] [] c8bridge c8port 101
    (by decide) (by decide) rfl (by decide) (by decide)
  have h2 := c8_zero_interface_ports.1 [c8vm] c8bridge
  exact ⟨h.1, h.2, h2.1⟩

/-- Claim C5: a mirror whose output port is absent (or the empty string)
or does not correlate to a placed device resolves to the empty source set
and contributes zero mirror edges; likewise an explicit mirror none of
whose listed source ports correlates to a placed device.  No error can
arise: the resolver and the builder are total functions. -/
theorem c5_dangling_mirror_empty (placedV placedC : List Nat) (b : Bridge)
    (m : Mirror) :
    (outputPortOf m = none →
      resolveMirror placedV placedC b m = [] ∧
        mirrorEdgesOf placedV placedC b m = []) ∧
    (∀ op, outputPortOf m = some op →
      monitoringDeviceIdOf placedV placedC op = none →
      resolveMirror placedV placedC b m = [] ∧
        mirrorEdgesOf placedV placedC b m = []) ∧
    (resolveMirror placedV placedC b m = [] →
      mirrorEdgesOf placedV placedC b m = []) ∧
    (m.select_all.getD false = false →
      (∀ pname ∈ (m.select_src_port.getD []) ++ (m.select_dst_port.getD []),
        correlatesToPlaced placedV placedC pname = false) →
      resolveMirror placedV placedC b m = [] ∧
        mirrorEdgesOf placedV placedC b m = []) ∧
    (∀ (bridges : List Bridge) (vms : List VM) (cts : List Container),
      (∀ b2 ∈ bridges, ∀ m2 ∈ b2.mirrors,
        resolveMirror (phaseA bridges vms cts).placedVMs
          (phaseA bridges vms cts).placedCTs b2 m2 = []) →
      ∀ e ∈ (buildTopology bridges vms cts).2, e.stroke ≠ "#dc004e") := by
  have hmain : ∀ (bridges : List Bridge) (vms : List VM) (cts : List Container),
      (∀ b2 ∈ bridges, ∀ m2 ∈ b2.mirrors,
        resolveMirror (phaseA bridges vms cts).placedVMs
          (phaseA bridges vms cts).placedCTs b2 m2 = []) →
      ∀ e ∈ (buildTopology bridges vms cts).2, e.stroke ≠ "#dc004e" := by
    intro bridges vms cts hall e he
    rw [buildTopology_edges_eq] at he
    rcases List.mem_append.1 he with he | he
    swap
    · have h2 := stoppedCTFold_edge_stroke bridges cts _ (by intro e2 he2; cases he2) e he
      rw [h2]
      decide
    rcases List.mem_append.1 he with he | he
    swap
    · have h2 := stoppedVMFold_edge_stroke bridges vms _ (by intro e2 he2; cases he2) e he
      rw [h2]
      decide
    rcases List.mem_flatMap.1 he with ⟨b2, hb2, he⟩
    unfold bridgeEdges at he
    rcases List.mem_append.1 he with he | he
    · rcases List.mem_flatMap.1 he with ⟨p, hp, he⟩
      rcases liveEdgesOfPort_mem he with ⟨vmid, _, _, _, rfl⟩ | ⟨ctid, _, _, _, rfl⟩
      · rw [show (liveVMEdge b2 p.name vmid).stroke = "#4caf50" from rfl]
        decide
      · rw [show (liveCTEdge b2 p.name ctid).stroke = "#ff9800" from rfl]
        decide
    · rcases List.mem_flatMap.1 he with ⟨m2, hm2, he⟩
      obtain ⟨op, monId, sp, hop, hmon, hsp, rfl⟩ := mirrorEdgesOf_mem he
      have hres := hall b2 hb2 m2 hm2
      unfold resolveMirror at hres
      simp only [hop, hmon] at hres
      rw [hres] at hsp
      cases hsp
  refine ⟨?_, ?_, ?_, ?_, hmain⟩
  · intro hop
    unfold resolveMirror mirrorEdgesOf
    rw [hop]
    exact ⟨rfl, rfl⟩
  · intro op hop hmon
    unfold resolveMirror mirrorEdgesOf
    simp only [hop, hmon]
    exact ⟨trivial, trivial⟩
  · intro hres
    unfold mirrorEdgesOf
    split
    · rfl
    · rename_i op hop
      split
      · rfl
      · rename_i monId hmon
        unfold resolveMirror at hres
        simp only [hop, hmon] at hres
        rw [hres]
        simp
  · intro hsel hall
    have hsrc : ∀ monId,
        resolveMirrorSources placedV placedC b m monId = [] := by
      intro monId
      unfold resolveMirrorSources sourcePortNamesOf
      rw [hsel, if_neg (by simp)]
      exact foldl_pushSourcePort_reject placedV placedC monId _ [] hall
    constructor
    · unfold resolveMirror
      split
      · rfl
      · split
        · rfl
        · rename_i monId hmon
          exact hsrc monId
    · unfold mirrorEdgesOf
      split
      · rfl
      · split
        · rfl
        · rename_i monId hmon
          rw [hsrc monId]
          simp

/-- Witness for C5 on the section 8 scenario: an explicit mirror listing
only the nonexistent source port tap999i0 (no VM 999 is placed) with
output tap103i0 on a bridge where vm-103 is placed resolves to the empty
set and yields zero mirror edges. -/
theorem c5_witness :
    resolveMirror [103, 101] []
      { uuid := "b0", name := "ovsbr0",
        ports := [{ uuid := "p1", name := "tap101i0", bridge := none, type := none,
                    tag := none, trunks := none, vlan_mode := none, interfaces := [] },
                  { uuid := "p3", name := "tap103i0", bridge := none, type := none,
                    tag := none, trunks := none, vlan_mode := none, interfaces := [] }],
        mirrors := [], cidr := none, comment := none, fail_mode := none,
        datapath_type := none }
      { uuid := "mx", name := some "explicit", bridge := "ovsbr0",
        select_src_port := some ["tap999i0"], select_dst_port := none,
        output_port := some "tap103i0", output_vlan := none,
        select_all := none } = [] ∧
    mirrorEdgesOf [103, 101] []
      { uuid := "b0", name := "ovsbr0",
        ports := [{ uuid := "p1", name := "tap101i0", bridge := none, type := none,
                    tag := none, trunks := none, vlan_mode := none, interfaces := [] },
                  { uuid := "p3", name := "tap103i0", bridge := none, type := none,
                    tag := none, trunks := none, vlan_mode := none, interfaces := [] }],
        mirrors := [], cidr := none, comment := none, fail_mode := none,
        datapath_type := none }
      { uuid := "mx", name := some "explicit", bridge := "ovsbr0",
        select_src_port := some ["tap999i0"], select_dst_port := none,
        output_port := some "tap103i0", output_vlan := none,
        select_all := none } = [] := by
  exact (c5_dangling_mirror_empty [103, 101] [] _ _).2.2.2.1 (by decide) (by decide)

end OvsManager
